import Mathlib

/-!
Shallow embedding of the sandbox lifecycle manager of Qbit-prod-backend
(`src/services/sandbox/e2b_manager.py`) and of the WebSocket connection
manager (`src/websocket/manager.py`).

Python dictionaries keyed by `project_id` are embedded as association
lists (`List (String × α)`) with Python-dict semantics: assignment
updates the first matching key in place, `pop` removes it, iteration
follows insertion order.  Remote-world effects (sandbox allocation,
`kill`, `files.write`, `files.read`, `files.exists`, health probes,
WebSocket `send_json`) are resolved by an explicit environment `Env`
passed to each call; an operation that the Python code wraps in
`try/except` is embedded as a total function returning the caught
result, while an operation that re-raises returns `Except`.
-/

/-- Python dict lookup `m.get(k)` on an association list. -/
def lookupM {α : Type} : List (String × α) → String → Option α
  | [], _ => none
  | kv :: rest, k => if kv.1 = k then some kv.2 else lookupM rest k

/-- Python dict assignment `m[k] = v`: update in place, else append. -/
def setk {α : Type} : List (String × α) → String → α → List (String × α)
  | [], k, v => [(k, v)]
  | kv :: rest, k, v => if kv.1 = k then (k, v) :: rest else kv :: setk rest k v

/-- Python dict removal `m.pop(k, None)`: drop the first matching key. -/
def popk {α : Type} : List (String × α) → String → List (String × α)
  | [], _ => []
  | kv :: rest, k => if kv.1 = k then rest else kv :: popk rest k

/-- The key list of an association list, in insertion order. -/
def keysM {α : Type} (m : List (String × α)) : List String :=
  m.map Prod.fst

/-- `min(d, key=d.get)` over a nonempty tail, carrying the best pair so far:
Python keeps the earliest key among ties. -/
def pyMinAux : (String × Nat) → List (String × Nat) → (String × Nat)
  | best, [] => best
  | best, kv :: rest => if kv.2 < best.2 then pyMinAux kv rest else pyMinAux best rest

/-- `min(d, key=d.get)` on an association list; `none` models the
`ValueError` Python raises on an empty dict. -/
def pyMin : List (String × Nat) → Option (String × Nat)
  | [] => none
  | kv :: rest => some (pyMinAux kv rest)

/-- `path.lstrip('/')`: strip every leading slash (written on the character
list so that it evaluates by structural recursion). -/
def normPath (p : String) : String :=
  ⟨p.data.dropWhile (fun c => c = '/')⟩

/-- Structural worker for `chunk10`: the fuel bounds the recursion depth
and is never exhausted when it starts at the list length. -/
def chunk10Go {α : Type} : Nat → List α → List (List α)
  | _, [] => []
  | 0, _ :: _ => []
  | fuel + 1, x :: xs => (x :: xs.take 9) :: chunk10Go fuel (xs.drop 9)

/-- The batches of at most 10 files used by `deploy_files` and
`update_files_hot_reload` (`file_items[i:i+10]`). -/
def chunk10 {α : Type} (l : List α) : List (List α) :=
  chunk10Go l.length l

lemma chunk10Go_fuel {α : Type} :
    ∀ (fuel : Nat) (l : List α), l.length ≤ fuel →
      chunk10Go fuel l = chunk10Go l.length l := by
  intro fuel
  induction fuel using Nat.strong_induction_on with
  | _ fuel ih =>
    intro l h
    cases fuel with
    | zero =>
      cases l with
      | nil => rfl
      | cons x xs => simp at h
    | succ fuel' =>
      cases l with
      | nil => rfl
      | cons x xs =>
        have hxs : xs.length ≤ fuel' := by
          simp only [List.length_cons] at h
          omega
        have h1 := ih fuel' (by omega) (xs.drop 9)
          (by simp only [List.length_drop]; omega)
        have h2 := ih xs.length (by omega) (xs.drop 9)
          (by simp only [List.length_drop]; omega)
        show (x :: xs.take 9) :: chunk10Go fuel' (xs.drop 9) =
          (x :: xs.take 9) :: chunk10Go xs.length (xs.drop 9)
        rw [h1, ← h2]

lemma chunk10_cons {α : Type} (x : α) (xs : List α) :
    chunk10 (x :: xs) = (x :: xs.take 9) :: chunk10 (xs.drop 9) := by
  show (x :: xs.take 9) :: chunk10Go xs.length (xs.drop 9) =
    (x :: xs.take 9) :: chunk10Go (xs.drop 9).length (xs.drop 9)
  rw [chunk10Go_fuel xs.length (xs.drop 9)
    (by simp only [List.length_drop]; omega)]

/-- A spawned server process (`SandboxProcess` in the source). -/
structure SandboxProcess where
  pid : Nat
  command : String
  port : Nat
  name : String
deriving DecidableEq, Repr

/-- The metadata dict stored per project (`{}` or `{"preview_mode": m}`). -/
structure SandboxMeta where
  preview_mode : Option String
deriving DecidableEq, Repr

/-- The five registry dicts of `E2BManager` plus its configuration. -/
structure ManagerState where
  max_sandboxes : Nat
  active_sandboxes : List (String × Nat)
  sandbox_ids : List (String × String)
  sandbox_processes : List (String × List SandboxProcess)
  last_activity : List (String × Nat)
  sandbox_metadata : List (String × SandboxMeta)
deriving DecidableEq, Repr

/-- A fresh manager (`E2BManager.__init__`): empty registry. -/
def initState (maxSandboxes : Nat) : ManagerState :=
  { max_sandboxes := maxSandboxes
    active_sandboxes := []
    sandbox_ids := []
    sandbox_processes := []
    last_activity := []
    sandbox_metadata := [] }

/-- The remote world and clock, resolving every effectful call of one
manager operation: sandbox handles are identified by `Nat`. -/
structure Env where
  now : Nat
  createOk : Bool
  newHandle : Nat
  newSandboxId : String
  killOk : Nat → Bool
  writeOk : String → Bool
  readOk : String → Bool
  sendOk : Nat → Bool
  probeOk : Nat → Bool
  existsRes : String → Bool
  frontendReady : Bool
  hostOk : Bool
  host : String
  dbFiles : String → List (String × String)
  dbMode : String

/-- A sandbox filesystem: normalized path to content. -/
abbrev FS := List (String × String)

/-- `sandbox.files.read(path)`: `some` content on success, `none` when the
call raises (missing file or transport failure). -/
def readSandbox (env : Env) (fs : FS) (p : String) : Option String :=
  if env.readOk p then lookupM fs (normPath p) else none

/-- The five `pop` calls of a successful `cleanup_sandbox`. -/
def popAll (st : ManagerState) (pid : String) : ManagerState :=
  { st with
      active_sandboxes := popk st.active_sandboxes pid
      sandbox_ids := popk st.sandbox_ids pid
      sandbox_processes := popk st.sandbox_processes pid
      last_activity := popk st.last_activity pid
      sandbox_metadata := popk st.sandbox_metadata pid }

/-- `E2BManager.cleanup_sandbox`: kill the tracked sandbox, then pop the
project from all five dicts; a raising `kill` is caught and the pops are
skipped.  Also returns the list of kill calls attempted. -/
def cleanup_sandbox (st : ManagerState) (env : Env) (pid : String) :
    ManagerState × List Nat :=
  match lookupM st.active_sandboxes pid with
  | none => (st, [])
  | some h =>
    if env.killOk h then (popAll st pid, [h])
    else (st, [h])

/-- `E2BManager._enforce_sandbox_limit`: at or above capacity, evict the
project whose `last_activity` is minimal; `min` on an empty dict raises. -/
def enforce_sandbox_limit (st : ManagerState) (env : Env) :
    Except String (ManagerState × List Nat) :=
  if st.max_sandboxes ≤ st.active_sandboxes.length then
    match pyMin st.last_activity with
    | none => .error "ValueError: min() arg is an empty sequence"
    | some lru => .ok (cleanup_sandbox st env lru.1)
  else .ok (st, [])

/-- Result of `create_sandbox`: the `Except` mirrors the re-raised
exception, the state records mutations that survive a raise. -/
structure CreateOut where
  res : Except String String
  st : ManagerState
  kills : List Nat
deriving Repr

/-- The five registrations of a successful `create_sandbox` (lines
221–225 of the source, in source order). -/
def registerAll (st : ManagerState) (env : Env) (pid : String) : ManagerState :=
  { st with
      active_sandboxes := setk st.active_sandboxes pid env.newHandle
      sandbox_ids := setk st.sandbox_ids pid env.newSandboxId
      last_activity := setk st.last_activity pid env.now
      sandbox_processes := setk st.sandbox_processes pid []
      sandbox_metadata := setk st.sandbox_metadata pid ⟨none⟩ }

/-- `E2BManager.create_sandbox`: enforce the limit, allocate remotely,
then register the project in all five dicts. -/
def create_sandbox (st : ManagerState) (env : Env) (pid : String) : CreateOut :=
  match enforce_sandbox_limit st env with
  | .error e => ⟨.error e, st, []⟩
  | .ok (st₁, ks) =>
    if env.createOk then
      ⟨.ok env.newSandboxId, registerAll st₁ env pid, ks⟩
    else ⟨.error "sandbox creation failed", st₁, ks⟩

/-- Folding `create_sandbox` over a sequence of calls. -/
def runCreates (st : ManagerState) (calls : List (String × Env)) : ManagerState :=
  calls.foldl (fun s c => (create_sandbox s c.2 c.1).st) st

/-- The WebSocket `ConnectionManager` registry (`src/websocket/manager.py`). -/
structure ConnState where
  active_connections : List (String × Nat)
  connection_ids : List (String × String)
deriving DecidableEq, Repr

/-- First `connection_id` mapped to `user_id` (the loop in `disconnect`). -/
def findConnId : List (String × String) → String → Option String
  | [], _ => none
  | kv :: rest, uid => if kv.2 = uid then some kv.1 else findConnId rest uid

/-- `ConnectionManager.disconnect`. -/
def ws_disconnect (cs : ConnState) (uid : String) : ConnState :=
  if (lookupM cs.active_connections uid).isSome then
    let cs₁ := { cs with active_connections := popk cs.active_connections uid }
    match findConnId cs.connection_ids uid with
    | some cid => { cs₁ with connection_ids := popk cs₁.connection_ids cid }
    | none => cs₁
  else cs

/-- `ConnectionManager.send_message`: `False` for an unknown user; a raising
`send_json` is caught, the user is disconnected, and `False` is returned. -/
def send_message (cs : ConnState) (env : Env) (uid : String) : Bool × ConnState :=
  match lookupM cs.active_connections uid with
  | none => (false, cs)
  | some ws => if env.sendOk ws then (true, cs) else (false, ws_disconnect cs uid)

/-- `send_sandbox_status` builds a status message and delegates to
`send_message`; the payload does not influence control flow. -/
def send_sandbox_status (cs : ConnState) (env : Env) (uid : String) : Bool × ConnState :=
  send_message cs env uid

/-- One remote upload event of a deploy: `issue k p` is the creation of the
write task for path `p` in batch `k`, `ack k p` its successful await. -/
inductive DEvent where
  | issue (batch : Nat) (path : String)
  | ack (batch : Nat) (path : String)
deriving DecidableEq, Repr

/-- The batch index an event belongs to. -/
def DEvent.batchIdx : DEvent → Nat
  | .issue k _ => k
  | .ack k _ => k

/-- All writes of a batch applied to a sandbox filesystem: every task runs,
the failing ones leave the filesystem untouched. -/
def writeBatchFS (env : Env) (fs : FS) (batch : List (String × String)) : FS :=
  batch.foldl
    (fun acc pc =>
      if env.writeOk (normPath pc.1) then setk acc (normPath pc.1) pc.2 else acc)
    fs

/-- Whether every write of a batch succeeds. -/
def batchOk (env : Env) (batch : List (String × String)) : Bool :=
  batch.all (fun pc => env.writeOk (normPath pc.1))

/-- The events of one batch: all tasks are created up front, then awaited in
order; the first failing await raises, so acks stop there. -/
def batchEvents (env : Env) (k : Nat) (batch : List (String × String)) : List DEvent :=
  batch.map (fun pc => DEvent.issue k pc.1) ++
    (batch.takeWhile (fun pc => env.writeOk (normPath pc.1))).map
      (fun pc => DEvent.ack k pc.1)

/-- The full event trace of a batch list starting at index `k`, had every
batch been issued. -/
def eventsJoin (env : Env) : Nat → List (List (String × String)) → List DEvent
  | _, [] => []
  | k, b :: rest => batchEvents env k b ++ eventsJoin env (k + 1) rest

/-- Outcome of the batched upload loop shared by `deploy_files` and the body
of `update_files_hot_reload`. -/
structure BatchOut where
  res : Bool
  fs : FS
  cs : ConnState
  events : List DEvent
deriving Repr

/-- The optional progress notification issued with `websocket_manager` and
`user_id` present; its boolean result is discarded by the caller. -/
def notifyStatus (env : Env) (wm : Option String) (cs : ConnState) : ConnState :=
  match wm with
  | some uid => (send_sandbox_status cs env uid).2
  | none => cs

/-- The batch loop of `deploy_files`: issue a batch, await it, report
progress, and stop at the first batch containing a failing write (the raise
is caught by the surrounding `except`, yielding `False`). -/
def deployBatches (env : Env) (wm : Option String) :
    Nat → FS → ConnState → List (List (String × String)) → BatchOut
  | _, fs, cs, [] => ⟨true, fs, cs, []⟩
  | k, fs, cs, b :: rest =>
    let fs' := writeBatchFS env fs b
    let ev := batchEvents env k b
    if batchOk env b then
      let o := deployBatches env wm (k + 1) fs' (notifyStatus env wm cs) rest
      ⟨o.res, o.fs, o.cs, ev ++ o.events⟩
    else ⟨false, fs', cs, ev⟩

/-- Result of `deploy_files`. -/
structure DeployOut where
  res : Bool
  st : ManagerState
  fs : FS
  cs : ConnState
  events : List DEvent
deriving Repr

/-- `E2BManager.deploy_files`: refuse unknown projects, report the start,
record the preview mode, then upload in batches of 10. -/
def deploy_files (st : ManagerState) (env : Env) (fs : FS) (cs : ConnState)
    (pid : String) (files : List (String × String)) (wm : Option String)
    (mode : String) : DeployOut :=
  if (lookupM st.active_sandboxes pid).isNone then ⟨false, st, fs, cs, []⟩
  else
    let st₁ := { st with
      sandbox_metadata := setk st.sandbox_metadata pid ⟨some mode⟩ }
    let o := deployBatches env wm 0 fs (notifyStatus env wm cs) (chunk10 files)
    ⟨o.res, st₁, o.fs, o.cs, o.events⟩

/-- Result dict of `install_dependencies`. -/
structure InstallResult where
  success : Bool
  frontend_installed : Bool
  backend_installed : Bool
  ai_installed : Bool
  message : Option String
deriving DecidableEq, Repr

/-- `E2BManager.install_dependencies`: template mode returns success for
every tier unconditionally, before any filesystem check (the conditional
per-tier code below the `return` is unreachable). -/
def install_dependencies (_st : ManagerState) (_pid : String) (_mode : String) :
    InstallResult :=
  { success := true
    frontend_installed := true
    backend_installed := true
    ai_installed := true
    message := some "Dependencies pre-installed in template" }

/-- Result dict of `start_servers`. -/
structure StartResult where
  success : Bool
  preview_url : Option String
  frontend_ready : Bool
  backend_ready : Bool
  ai_ready : Bool
deriving DecidableEq, Repr

/-- `E2BManager.start_servers`: start existing tiers in the background, poll
only the frontend; a frontend that never answers fails the whole call. -/
def start_servers (st : ManagerState) (env : Env) (pid : String) : StartResult :=
  if (lookupM st.active_sandboxes pid).isNone then
    ⟨false, none, false, false, false⟩
  else
    let hf := env.existsRes "frontend"
    let hb := env.existsRes "backend"
    let ha := env.existsRes "ai_services"
    if hf && !env.frontendReady then ⟨false, none, false, false, false⟩
    else
      ⟨true,
        if hf && env.hostOk then some ("https://" ++ env.host) else none,
        hf, hb, ha⟩

/-- `E2BManager._recreate_sandbox_from_db`: load the stored files, then
replay create → deploy → inject → install → start.  The boolean result of
`deploy_files` is not consulted; install and server start are. -/
def recreate_sandbox_from_db (st : ManagerState) (env : Env) (pid : String) :
    Option Nat × ManagerState :=
  let files := env.dbFiles pid
  if files.isEmpty then (none, st)
  else
    let c := create_sandbox st env pid
    match c.res with
    | .error _ => (none, c.st)
    | .ok _ =>
      let d := deploy_files c.st env [] ⟨[], []⟩ pid files none env.dbMode
      let inst := install_dependencies d.st pid env.dbMode
      if !inst.success then (none, d.st)
      else
        let sres := start_servers d.st env pid
        if !sres.success then (none, d.st)
        else (lookupM d.st.active_sandboxes pid, d.st)

/-- `E2BManager._check_sandbox_health`: a no-op command with a short
timeout; any raise is caught as `False`. -/
def check_sandbox_health (env : Env) (h : Nat) : Bool :=
  env.probeOk h

/-- `E2BManager.get_active_sandbox`: untracked projects go straight to
recreation; tracked ones are probed, cleaned up and recreated when dead,
or refreshed and returned when alive. -/
def get_active_sandbox (st : ManagerState) (env : Env) (pid : String) :
    Option Nat × ManagerState :=
  match lookupM st.active_sandboxes pid with
  | none => recreate_sandbox_from_db st env pid
  | some h =>
    if check_sandbox_health env h then
      (some h, { st with last_activity := setk st.last_activity pid env.now })
    else
      recreate_sandbox_from_db (cleanup_sandbox st env pid).1 env pid

/-- Outcome of `update_files_hot_reload`: the reported result, the sandbox
filesystem, and the paths whose upload was issued. -/
structure HotOut where
  res : Bool
  fs : FS
  uploaded : List String
deriving DecidableEq, Repr

/-- The batched upload of the changed files in `update_files_hot_reload`
(`asyncio.gather` issues a whole batch; a failing write fails the call). -/
def hotBatches (env : Env) : FS → List (List (String × String)) → HotOut
  | fs, [] => ⟨true, fs, []⟩
  | fs, b :: rest =>
    let fs' := writeBatchFS env fs b
    let issued := b.map Prod.fst
    if batchOk env b then
      let o := hotBatches env fs' rest
      ⟨o.res, o.fs, issued ++ o.uploaded⟩
    else ⟨false, fs', issued⟩

/-- The current-content string used for the diff: a raising read is caught
and replaced by the empty string. -/
def existingContent (env : Env) (fs : FS) (p : String) : String :=
  (readSandbox env fs p).getD ""

/-- `E2BManager.update_files_hot_reload`: read back each path, keep only
entries whose incoming content differs, and upload just those in batches. -/
def update_files_hot_reload (st : ManagerState) (env : Env) (fs : FS)
    (pid : String) (updated : List (String × String)) : HotOut :=
  if (lookupM st.active_sandboxes pid).isNone then ⟨false, fs, []⟩
  else
    let changed := updated.filter (fun pc => !(existingContent env fs pc.1 == pc.2))
    if changed.isEmpty then ⟨true, fs, []⟩
    else hotBatches env fs (chunk10 changed)

lemma lookupM_isSome_iff {α : Type} (m : List (String × α)) (k : String) :
    (lookupM m k).isSome ↔ k ∈ keysM m := by
  induction m with
  | nil => simp [lookupM, keysM]
  | cons kv rest ih =>
    by_cases h : kv.1 = k
    · simp [lookupM, keysM, h]
    · have h' : ¬ k = kv.1 := fun hk => h hk.symm
      rw [lookupM, if_neg h]
      show (lookupM rest k).isSome ↔ k ∈ kv.1 :: keysM rest
      rw [List.mem_cons, ih]
      simp [h']

lemma lookupM_eq_none_iff {α : Type} (m : List (String × α)) (k : String) :
    lookupM m k = none ↔ k ∉ keysM m := by
  rw [← lookupM_isSome_iff, Option.isSome_iff_exists]
  cases lookupM m k <;> simp

lemma lookupM_setk_self {α : Type} (m : List (String × α)) (k : String) (v : α) :
    lookupM (setk m k v) k = some v := by
  induction m with
  | nil => simp [setk, lookupM]
  | cons kv rest ih =>
    by_cases h : kv.1 = k
    · simp [setk, lookupM, h]
    · simp [setk, lookupM, h, ih]

lemma lookupM_setk_ne {α : Type} (m : List (String × α)) (k k' : String) (v : α)
    (h : k' ≠ k) : lookupM (setk m k v) k' = lookupM m k' := by
  have h' : ¬ k = k' := fun hk => h hk.symm
  induction m with
  | nil =>
    simp only [setk, lookupM]
    rw [if_neg h']
  | cons kv rest ih =>
    by_cases hk : kv.1 = k
    · simp only [setk, if_pos hk, lookupM]
      rw [if_neg h', hk, if_neg h']
    · simp only [setk, if_neg hk, lookupM, ih]

lemma keysM_setk {α : Type} (m : List (String × α)) (k : String) (v : α) :
    keysM (setk m k v) = if k ∈ keysM m then keysM m else keysM m ++ [k] := by
  induction m with
  | nil => simp [setk, keysM]
  | cons kv rest ih =>
    obtain ⟨a, b⟩ := kv
    by_cases h : a = k
    · subst h
      simp [setk, keysM]
    · have h' : ¬ k = a := fun hk => h hk.symm
      have hstep : setk ((a, b) :: rest) k v = (a, b) :: setk rest k v := by
        simp only [setk]
        rw [if_neg (show ¬ (a, b).1 = k from h)]
      have hmem : k ∈ keysM ((a, b) :: rest) ↔ k ∈ keysM rest := by
        show k ∈ a :: keysM rest ↔ _
        rw [List.mem_cons]
        simp [h']
      rw [hstep]
      by_cases hm : k ∈ keysM rest
      · rw [if_pos (hmem.mpr hm)]
        show a :: keysM (setk rest k v) = a :: keysM rest
        rw [ih, if_pos hm]
      · rw [if_neg (fun hc => hm (hmem.mp hc))]
        show a :: keysM (setk rest k v) = (a :: keysM rest) ++ [k]
        rw [ih, if_neg hm]
        rfl

lemma length_setk {α : Type} (m : List (String × α)) (k : String) (v : α) :
    (setk m k v).length = if k ∈ keysM m then m.length else m.length + 1 := by
  induction m with
  | nil => simp [setk, keysM]
  | cons kv rest ih =>
    obtain ⟨a, b⟩ := kv
    by_cases h : a = k
    · subst h
      simp [setk, keysM]
    · have h' : ¬ k = a := fun hk => h hk.symm
      have hstep : setk ((a, b) :: rest) k v = (a, b) :: setk rest k v := by
        simp only [setk]
        rw [if_neg (show ¬ (a, b).1 = k from h)]
      have hmem : k ∈ keysM ((a, b) :: rest) ↔ k ∈ keysM rest := by
        show k ∈ a :: keysM rest ↔ _
        rw [List.mem_cons]
        simp [h']
      rw [hstep]
      by_cases hm : k ∈ keysM rest
      · rw [if_pos (hmem.mpr hm)]
        show (setk rest k v).length + 1 = rest.length + 1
        rw [ih, if_pos hm]
      · rw [if_neg (fun hc => hm (hmem.mp hc))]
        show (setk rest k v).length + 1 = rest.length + 1 + 1
        rw [ih, if_neg hm]

/-- Key list after `pop`, as a pure function of the old key list. -/
def eraseKey : List String → String → List String
  | [], _ => []
  | a :: l, k => if a = k then l else a :: eraseKey l k

lemma keysM_popk {α : Type} (m : List (String × α)) (k : String) :
    keysM (popk m k) = eraseKey (keysM m) k := by
  induction m with
  | nil => simp [popk, keysM, eraseKey]
  | cons kv rest ih =>
    by_cases h : kv.1 = k
    · simp [popk, keysM, eraseKey, h]
    · have hstep : popk (kv :: rest) k = kv :: popk rest k := by
        rw [popk, if_neg h]
      rw [hstep]
      show kv.1 :: keysM (popk rest k) = eraseKey (kv.1 :: keysM rest) k
      rw [eraseKey.eq_def]
      simp only [if_neg h, ih]

lemma mem_of_mem_eraseKey {l : List String} {k x : String}
    (h : x ∈ eraseKey l k) : x ∈ l := by
  induction l with
  | nil => simp [eraseKey] at h
  | cons a t ih =>
    by_cases ha : a = k
    · simp [eraseKey, ha] at h
      simp [h]
    · simp [eraseKey, ha] at h
      rcases h with h | h
      · simp [h]
      · simp [ih h]

lemma nodup_eraseKey {l : List String} (k : String) (h : l.Nodup) :
    (eraseKey l k).Nodup := by
  induction l with
  | nil => simp [eraseKey]
  | cons a t ih =>
    rcases List.nodup_cons.mp h with ⟨ha, ht⟩
    by_cases hak : a = k
    · simpa [eraseKey, hak] using ht
    · rw [eraseKey.eq_def]
      simp only [if_neg hak]
      exact List.nodup_cons.mpr ⟨fun hmem => ha (mem_of_mem_eraseKey hmem), ih ht⟩

lemma length_eraseKey {l : List String} {k : String} (h : k ∈ l) :
    (eraseKey l k).length + 1 = l.length := by
  induction l with
  | nil => simp at h
  | cons a t ih =>
    by_cases ha : a = k
    · simp [eraseKey, ha]
    · have ht : k ∈ t := by
        rcases List.mem_cons.mp h with h' | h'
        · exact absurd h'.symm ha
        · exact h'
      simp [eraseKey, ha, ih ht]

lemma not_mem_eraseKey_self {l : List String} {k : String} (h : l.Nodup) :
    k ∉ eraseKey l k := by
  induction l with
  | nil => simp [eraseKey]
  | cons a t ih =>
    rcases List.nodup_cons.mp h with ⟨ha, ht⟩
    by_cases hak : a = k
    · subst hak; simpa [eraseKey] using ha
    · simp [eraseKey, hak]
      exact ⟨fun hk => hak hk.symm, ih ht⟩

lemma length_popk {α : Type} (m : List (String × α)) (k : String)
    (h : k ∈ keysM m) : (popk m k).length + 1 = m.length := by
  induction m with
  | nil => simp [keysM] at h
  | cons kv rest ih =>
    by_cases hk : kv.1 = k
    · simp [popk, hk]
    · have h' : k = kv.1 ∨ k ∈ keysM rest := by
        simpa [keysM] using h
      have ht : k ∈ keysM rest := by
        rcases h' with h' | h'
        · exact absurd h'.symm hk
        · exact h'
      simp [popk, hk, ih ht]

lemma lookupM_popk_self {α : Type} (m : List (String × α)) (k : String)
    (h : (keysM m).Nodup) : lookupM (popk m k) k = none := by
  rw [lookupM_eq_none_iff, keysM_popk]
  exact not_mem_eraseKey_self h

lemma pyMinAux_spec (best : String × Nat) (m : List (String × Nat)) :
    (pyMinAux best m = best ∨ pyMinAux best m ∈ m) ∧
      (pyMinAux best m).2 ≤ best.2 ∧ ∀ kv ∈ m, (pyMinAux best m).2 ≤ kv.2 := by
  induction m generalizing best with
  | nil => simp [pyMinAux]
  | cons kv rest ih =>
    by_cases h : kv.2 < best.2
    · rcases ih kv with ⟨hmem, hle, hall⟩
      refine ⟨?_, ?_, ?_⟩
      · simp only [pyMinAux, if_pos h]
        rcases hmem with hm | hm
        · exact Or.inr (by simp [hm])
        · exact Or.inr (by simp [hm])
      · simp only [pyMinAux, if_pos h]; omega
      · intro kv' hkv'
        simp only [pyMinAux, if_pos h]
        rcases List.mem_cons.mp hkv' with he | he
        · subst he; exact hle
        · exact hall kv' he
    · rcases ih best with ⟨hmem, hle, hall⟩
      refine ⟨?_, ?_, ?_⟩
      · simp only [pyMinAux, if_neg h]
        rcases hmem with hm | hm
        · exact Or.inl hm
        · exact Or.inr (by simp [hm])
      · simp only [pyMinAux, if_neg h]; exact hle
      · intro kv' hkv'
        simp only [pyMinAux, if_neg h]
        rcases List.mem_cons.mp hkv' with he | he
        · subst he; omega
        · exact hall kv' he

lemma pyMin_spec (m : List (String × Nat)) (h : m ≠ []) :
    ∃ p, pyMin m = some p ∧ p ∈ m ∧ ∀ kv ∈ m, p.2 ≤ kv.2 := by
  cases m with
  | nil => exact absurd rfl h
  | cons kv rest =>
    rcases pyMinAux_spec kv rest with ⟨hmem, hle, hall⟩
    refine ⟨pyMinAux kv rest, rfl, ?_, ?_⟩
    · rcases hmem with hm | hm
      · simp [hm]
      · simp [hm]
    · intro kv' hkv'
      rcases List.mem_cons.mp hkv' with he | he
      · subst he; exact hle
      · exact hall kv' he

lemma mem_keysM_of_mem {α : Type} {m : List (String × α)} {kv : String × α}
    (h : kv ∈ m) : kv.1 ∈ keysM m := by
  simp only [keysM, List.mem_map]
  exact ⟨kv, h, rfl⟩

/-- The five registry dicts always track exactly the same projects, in the
same insertion order. -/
def KeysEq (st : ManagerState) : Prop :=
  keysM st.sandbox_ids = keysM st.active_sandboxes ∧
  keysM st.sandbox_processes = keysM st.active_sandboxes ∧
  keysM st.last_activity = keysM st.active_sandboxes ∧
  keysM st.sandbox_metadata = keysM st.active_sandboxes

/-- Well-formedness of the registry: no duplicate project keys, and all
five dicts agree on the tracked projects. -/
def RegistryInv (st : ManagerState) : Prop :=
  (keysM st.active_sandboxes).Nodup ∧ KeysEq st

instance (st : ManagerState) : Decidable (KeysEq st) := by
  unfold KeysEq
  infer_instance

instance (st : ManagerState) : Decidable (RegistryInv st) := by
  unfold RegistryInv
  infer_instance

lemma cleanup_missing (st : ManagerState) (env : Env) (pid : String)
    (hl : lookupM st.active_sandboxes pid = none) :
    cleanup_sandbox st env pid = (st, []) := by
  simp [cleanup_sandbox, hl]

lemma cleanup_found (st : ManagerState) (env : Env) (pid : String) (h : Nat)
    (hl : lookupM st.active_sandboxes pid = some h) (hk : env.killOk h = true) :
    cleanup_sandbox st env pid = (popAll st pid, [h]) := by
  simp [cleanup_sandbox, hl, hk]

lemma cleanup_kill_fail (st : ManagerState) (env : Env) (pid : String) (h : Nat)
    (hl : lookupM st.active_sandboxes pid = some h) (hk : env.killOk h = false) :
    cleanup_sandbox st env pid = (st, [h]) := by
  simp [cleanup_sandbox, hl, hk]

lemma registryInv_popAll (st : ManagerState) (pid : String)
    (hinv : RegistryInv st) : RegistryInv (popAll st pid) := by
  rcases hinv with ⟨hnd, h1, h2, h3, h4⟩
  refine ⟨?_, ?_, ?_, ?_, ?_⟩
  · show (keysM (popk st.active_sandboxes pid)).Nodup
    rw [keysM_popk]
    exact nodup_eraseKey pid hnd
  · show keysM (popk st.sandbox_ids pid) = keysM (popk st.active_sandboxes pid)
    rw [keysM_popk, keysM_popk, h1]
  · show keysM (popk st.sandbox_processes pid) = keysM (popk st.active_sandboxes pid)
    rw [keysM_popk, keysM_popk, h2]
  · show keysM (popk st.last_activity pid) = keysM (popk st.active_sandboxes pid)
    rw [keysM_popk, keysM_popk, h3]
  · show keysM (popk st.sandbox_metadata pid) = keysM (popk st.active_sandboxes pid)
    rw [keysM_popk, keysM_popk, h4]

lemma registryInv_cleanup (st : ManagerState) (env : Env) (pid : String)
    (hinv : RegistryInv st) : RegistryInv (cleanup_sandbox st env pid).1 := by
  cases hl : lookupM st.active_sandboxes pid with
  | none => rw [cleanup_missing st env pid hl]; exact hinv
  | some h =>
    by_cases hk : env.killOk h
    · rw [cleanup_found st env pid h hl hk]
      exact registryInv_popAll st pid hinv
    · rw [cleanup_kill_fail st env pid h hl (by simpa using hk)]
      exact hinv

lemma registryInv_registerAll (st : ManagerState) (env : Env) (pid : String)
    (hinv : RegistryInv st) : RegistryInv (registerAll st env pid) := by
  rcases hinv with ⟨hnd, h1, h2, h3, h4⟩
  have hset : ∀ {β : Type} (m : List (String × β)) (v : β),
      keysM m = keysM st.active_sandboxes →
      keysM (setk m pid v) =
        if pid ∈ keysM st.active_sandboxes then keysM st.active_sandboxes
        else keysM st.active_sandboxes ++ [pid] := by
    intro β m v hm
    rw [keysM_setk, hm]
  refine ⟨?_, ?_, ?_, ?_, ?_⟩
  · show (keysM (setk st.active_sandboxes pid env.newHandle)).Nodup
    rw [hset st.active_sandboxes env.newHandle rfl]
    by_cases hm : pid ∈ keysM st.active_sandboxes
    · rw [if_pos hm]; exact hnd
    · rw [if_neg hm]
      refine List.Nodup.append hnd (List.nodup_singleton pid) ?_
      intro x hx hx'
      rcases List.mem_singleton.mp hx' with rfl
      exact hm hx
  · show keysM (setk st.sandbox_ids pid env.newSandboxId) =
        keysM (setk st.active_sandboxes pid env.newHandle)
    rw [hset st.sandbox_ids env.newSandboxId h1,
      hset st.active_sandboxes env.newHandle rfl]
  · show keysM (setk st.sandbox_processes pid []) =
        keysM (setk st.active_sandboxes pid env.newHandle)
    rw [hset st.sandbox_processes [] h2,
      hset st.active_sandboxes env.newHandle rfl]
  · show keysM (setk st.last_activity pid env.now) =
        keysM (setk st.active_sandboxes pid env.newHandle)
    rw [hset st.last_activity env.now h3,
      hset st.active_sandboxes env.newHandle rfl]
  · show keysM (setk st.sandbox_metadata pid ⟨none⟩) =
        keysM (setk st.active_sandboxes pid env.newHandle)
    rw [hset st.sandbox_metadata ⟨none⟩ h4,
      hset st.active_sandboxes env.newHandle rfl]

lemma pyMin_mem {m : List (String × Nat)} {p : String × Nat}
    (h : pyMin m = some p) : p ∈ m := by
  cases m with
  | nil => simp [pyMin] at h
  | cons kv rest =>
    rcases pyMinAux_spec kv rest with ⟨hmem, -, -⟩
    have hp : p = pyMinAux kv rest := by
      simpa [pyMin] using h.symm
    subst hp
    rcases hmem with hm | hm
    · simp [hm]
    · simp [hm]

lemma pyMin_min {m : List (String × Nat)} {p : String × Nat}
    (h : pyMin m = some p) : ∀ kv ∈ m, p.2 ≤ kv.2 := by
  cases m with
  | nil => simp [pyMin] at h
  | cons kv rest =>
    rcases pyMinAux_spec kv rest with ⟨-, hle, hall⟩
    have hp : p = pyMinAux kv rest := by
      simpa [pyMin] using h.symm
    subst hp
    intro kv' hkv'
    rcases List.mem_cons.mp hkv' with he | he
    · subst he; exact hle
    · exact hall kv' he

lemma enforce_below (st : ManagerState) (env : Env)
    (h : st.active_sandboxes.length < st.max_sandboxes) :
    enforce_sandbox_limit st env = .ok (st, []) := by
  simp [enforce_sandbox_limit, Nat.not_le.mpr h]

lemma enforce_empty (st : ManagerState) (env : Env)
    (hat : st.max_sandboxes ≤ st.active_sandboxes.length)
    (hpm : pyMin st.last_activity = none) :
    enforce_sandbox_limit st env =
      .error "ValueError: min() arg is an empty sequence" := by
  simp [enforce_sandbox_limit, hat, hpm]

lemma enforce_at_limit (st : ManagerState) (env : Env) (lru : String × Nat)
    (hat : st.max_sandboxes ≤ st.active_sandboxes.length)
    (hpm : pyMin st.last_activity = some lru) :
    enforce_sandbox_limit st env = .ok (cleanup_sandbox st env lru.1) := by
  simp [enforce_sandbox_limit, hat, hpm]

lemma create_of_enforce_error (st : ManagerState) (env : Env) (pid : String)
    (e : String) (he : enforce_sandbox_limit st env = .error e) :
    create_sandbox st env pid = ⟨.error e, st, []⟩ := by
  simp [create_sandbox, he]

lemma create_of_enforce_ok (st : ManagerState) (env : Env) (pid : String)
    (st₁ : ManagerState) (ks : List Nat)
    (he : enforce_sandbox_limit st env = .ok (st₁, ks)) :
    create_sandbox st env pid =
      if env.createOk then ⟨.ok env.newSandboxId, registerAll st₁ env pid, ks⟩
      else ⟨.error "sandbox creation failed", st₁, ks⟩ := by
  simp [create_sandbox, he]

lemma lookupM_mem_some {α : Type} {m : List (String × α)} {k : String}
    (h : k ∈ keysM m) : ∃ v, lookupM m k = some v := by
  have := (lookupM_isSome_iff m k).mpr h
  exact Option.isSome_iff_exists.mp this

lemma create_step_inv (st : ManagerState) (env : Env) (pid : String)
    (hinv : RegistryInv st) (hlen : st.active_sandboxes.length ≤ st.max_sandboxes)
    (hkill : ∀ h, env.killOk h = true) :
    RegistryInv (create_sandbox st env pid).st ∧
      (create_sandbox st env pid).st.active_sandboxes.length ≤ st.max_sandboxes ∧
      (create_sandbox st env pid).st.max_sandboxes = st.max_sandboxes := by
  by_cases hat : st.max_sandboxes ≤ st.active_sandboxes.length
  · cases hpm : pyMin st.last_activity with
    | none =>
      have he := enforce_empty st env hat hpm
      rw [create_of_enforce_error st env pid _ he]
      exact ⟨hinv, hlen, rfl⟩
    | some lru =>
      have he := enforce_at_limit st env lru hat hpm
      have hmemlast : lru ∈ st.last_activity := pyMin_mem hpm
      have hkey : lru.1 ∈ keysM st.active_sandboxes := by
        have hk1 : lru.1 ∈ keysM st.last_activity := mem_keysM_of_mem hmemlast
        rcases hinv with ⟨-, -, -, h3, -⟩
        rwa [h3] at hk1
      rcases lookupM_mem_some hkey with ⟨hh, hl⟩
      have hcl := cleanup_found st env lru.1 hh hl (hkill hh)
      rw [hcl] at he
      have hinv₁ : RegistryInv (popAll st lru.1) := registryInv_popAll st lru.1 hinv
      have hlen₁ : (popAll st lru.1).active_sandboxes.length + 1 =
          st.active_sandboxes.length := by
        show (popk st.active_sandboxes lru.1).length + 1 = _
        exact length_popk st.active_sandboxes lru.1 hkey
      rw [create_of_enforce_ok st env pid _ _ he]
      by_cases hc : env.createOk = true
      · rw [if_pos hc]
        refine ⟨registryInv_registerAll _ env pid hinv₁, ?_, rfl⟩
        show (setk (popAll st lru.1).active_sandboxes pid env.newHandle).length ≤ _
        rw [length_setk]
        by_cases hm : pid ∈ keysM (popAll st lru.1).active_sandboxes
        · rw [if_pos hm]; omega
        · rw [if_neg hm]; omega
      · rw [if_neg hc]
        refine ⟨hinv₁, ?_, rfl⟩
        show (popAll st lru.1).active_sandboxes.length ≤ _
        omega
  · have he := enforce_below st env (Nat.not_le.mp hat)
    rw [create_of_enforce_ok st env pid _ _ he]
    have hlt : st.active_sandboxes.length < st.max_sandboxes := Nat.not_le.mp hat
    by_cases hc : env.createOk = true
    · rw [if_pos hc]
      refine ⟨registryInv_registerAll _ env pid hinv, ?_, rfl⟩
      show (setk st.active_sandboxes pid env.newHandle).length ≤ _
      rw [length_setk]
      by_cases hm : pid ∈ keysM st.active_sandboxes
      · rw [if_pos hm]; omega
      · rw [if_neg hm]; omega
    · rw [if_neg hc]; exact ⟨hinv, hlen, rfl⟩

lemma registryInv_create (st : ManagerState) (env : Env) (pid : String)
    (hinv : RegistryInv st) : RegistryInv (create_sandbox st env pid).st := by
  by_cases hat : st.max_sandboxes ≤ st.active_sandboxes.length
  · cases hpm : pyMin st.last_activity with
    | none =>
      rw [create_of_enforce_error st env pid _ (enforce_empty st env hat hpm)]
      exact hinv
    | some lru =>
      have he := enforce_at_limit st env lru hat hpm
      have hinv₁ : RegistryInv (cleanup_sandbox st env lru.1).1 :=
        registryInv_cleanup st env lru.1 hinv
      rw [create_of_enforce_ok st env pid _ _ (by rw [he])]
      by_cases hc : env.createOk = true
      · rw [if_pos hc]
        exact registryInv_registerAll _ env pid hinv₁
      · rw [if_neg hc]; exact hinv₁
  · rw [create_of_enforce_ok st env pid _ _
      (enforce_below st env (Nat.not_le.mp hat))]
    by_cases hc : env.createOk = true
    · rw [if_pos hc]
      exact registryInv_registerAll _ env pid hinv
    · rw [if_neg hc]; exact hinv

lemma runCreates_inv (calls : List (String × Env)) :
    ∀ st : ManagerState, (∀ c ∈ calls, ∀ h, c.2.killOk h = true) →
      RegistryInv st → st.active_sandboxes.length ≤ st.max_sandboxes →
      RegistryInv (runCreates st calls) ∧
        (runCreates st calls).active_sandboxes.length ≤
          (runCreates st calls).max_sandboxes ∧
        (runCreates st calls).max_sandboxes = st.max_sandboxes := by
  induction calls with
  | nil =>
    intro st _ hinv hlen
    exact ⟨hinv, hlen, rfl⟩
  | cons c rest ih =>
    intro st hkills hinv hlen
    have hstep := create_step_inv st c.2 c.1 hinv hlen (hkills c (by simp))
    have hrun : runCreates st (c :: rest) =
        runCreates (create_sandbox st c.2 c.1).st rest := rfl
    rw [hrun]
    have hrest := ih (create_sandbox st c.2 c.1).st
      (fun c' hc' => hkills c' (by simp [hc']))
      hstep.1 (by rw [hstep.2.2]; exact hstep.2.1)
    exact ⟨hrest.1, hrest.2.1, by rw [hrest.2.2, hstep.2.2]⟩

lemma chunk10_flatten {α : Type} (l : List α) : (chunk10 l).flatten = l := by
  suffices h : ∀ (n : Nat) (l : List α), l.length ≤ n →
      (chunk10 l).flatten = l from h l.length l (le_refl _)
  intro n
  induction n using Nat.strong_induction_on with
  | _ n ih =>
    intro l hl
    cases l with
    | nil => rfl
    | cons x xs =>
      simp only [List.length_cons] at hl
      rw [chunk10_cons, List.flatten_cons,
        ih xs.length (by omega) (xs.drop 9)
          (by simp only [List.length_drop]; omega)]
      simp [List.take_append_drop]

lemma chunk10_length {α : Type} (l : List α) :
    (chunk10 l).length = (l.length + 9) / 10 := by
  suffices h : ∀ (n : Nat) (l : List α), l.length ≤ n →
      (chunk10 l).length = (l.length + 9) / 10 from h l.length l (le_refl _)
  intro n
  induction n using Nat.strong_induction_on with
  | _ n ih =>
    intro l hl
    cases l with
    | nil => simp [chunk10, chunk10Go]
    | cons x xs =>
      simp only [List.length_cons] at hl
      rw [chunk10_cons]
      simp only [List.length_cons,
        ih xs.length (by omega) (xs.drop 9)
          (by simp only [List.length_drop]; omega), List.length_drop]
      omega

lemma chunk10_sizes {α : Type} (l : List α) : ∀ b ∈ chunk10 l, b.length ≤ 10 := by
  suffices h : ∀ (n : Nat) (l : List α), l.length ≤ n →
      ∀ b ∈ chunk10 l, b.length ≤ 10 from h l.length l (le_refl _)
  intro n
  induction n using Nat.strong_induction_on with
  | _ n ih =>
    intro l hl
    cases l with
    | nil => simp [chunk10, chunk10Go]
    | cons x xs =>
      simp only [List.length_cons] at hl
      intro b hb
      rw [chunk10_cons] at hb
      rcases List.mem_cons.mp hb with hb | hb
      · subst hb
        simp only [List.length_cons, List.length_take]
        omega
      · exact ih xs.length (by omega) (xs.drop 9)
          (by simp only [List.length_drop]; omega) b hb

/-- The writes issued for a flat list of files, applied in issue order. -/
def applyWrites (env : Env) (fs : FS) (l : List (String × String)) : FS :=
  l.foldl
    (fun acc pc =>
      if env.writeOk (normPath pc.1) then setk acc (normPath pc.1) pc.2 else acc)
    fs

lemma writeBatchFS_eq_applyWrites (env : Env) (fs : FS)
    (b : List (String × String)) : writeBatchFS env fs b = applyWrites env fs b :=
  rfl

lemma applyWrites_append (env : Env) (fs : FS) (l₁ l₂ : List (String × String)) :
    applyWrites env fs (l₁ ++ l₂) = applyWrites env (applyWrites env fs l₁) l₂ := by
  simp [applyWrites, List.foldl_append]

lemma foldl_writeBatch_flatten (env : Env) (L : List (List (String × String))) :
    ∀ fs : FS, L.foldl (writeBatchFS env) fs = applyWrites env fs L.flatten := by
  induction L with
  | nil => intro fs; simp [applyWrites]
  | cons b rest ih =>
    intro fs
    rw [List.foldl_cons, ih, List.flatten_cons, applyWrites_append,
      writeBatchFS_eq_applyWrites]

lemma applyWrites_lookup_notmem (env : Env) (l : List (String × String)) :
    ∀ (fs : FS) (q : String), (∀ pc ∈ l, normPath pc.1 ≠ q) →
      lookupM (applyWrites env fs l) q = lookupM fs q := by
  induction l with
  | nil => intro fs q _; rfl
  | cons pc rest ih =>
    intro fs q h
    simp only [applyWrites, List.foldl_cons]
    rw [show List.foldl _ _ rest = applyWrites env
      (if env.writeOk (normPath pc.1) then setk fs (normPath pc.1) pc.2 else fs)
      rest from rfl]
    rw [ih _ q (fun pc' h' => h pc' (List.mem_cons_of_mem pc h'))]
    by_cases hw : env.writeOk (normPath pc.1) = true
    · rw [if_pos hw,
        lookupM_setk_ne fs (normPath pc.1) q pc.2
          (fun he => h pc (List.mem_cons_self pc rest) (he.symm))]
    · rw [if_neg hw]

lemma applyWrites_lookup_mem (env : Env) (l : List (String × String)) :
    ∀ (fs : FS) (p c : String), (p, c) ∈ l → env.writeOk (normPath p) = true →
      (l.map (fun pc => normPath pc.1)).Nodup →
      lookupM (applyWrites env fs l) (normPath p) = some c := by
  induction l with
  | nil => intro fs p c h; simp at h
  | cons pc rest ih =>
    intro fs p c hmem hw hnd
    rw [List.map_cons, List.nodup_cons] at hnd
    obtain ⟨hh, hndr⟩ := hnd
    simp only [applyWrites, List.foldl_cons]
    rw [show List.foldl _ _ rest = applyWrites env
      (if env.writeOk (normPath pc.1) then setk fs (normPath pc.1) pc.2 else fs)
      rest from rfl]
    rcases List.mem_cons.mp hmem with he | he
    · obtain rfl : pc = (p, c) := he.symm
      have hrest : ∀ pc' ∈ rest, normPath pc'.1 ≠ normPath p := by
        intro pc' h' he'
        exact hh (List.mem_map.mpr ⟨pc', h', he'⟩)
      rw [applyWrites_lookup_notmem env rest _ _ hrest, if_pos hw,
        lookupM_setk_self]
    · exact ih _ p c he hw hndr

lemma deployBatches_spec (env : Env) (wm : Option String)
    (bs : List (List (String × String))) :
    ∀ (k : Nat) (fs : FS) (cs : ConnState),
      ((deployBatches env wm k fs cs bs).res = true ↔
        ∀ b ∈ bs, batchOk env b = true) ∧
      ((deployBatches env wm k fs cs bs).res = true →
        (deployBatches env wm k fs cs bs).fs = bs.foldl (writeBatchFS env) fs ∧
        (deployBatches env wm k fs cs bs).events = eventsJoin env k bs) ∧
      ((deployBatches env wm k fs cs bs).res = false →
        ∃ good bad rest, bs = good ++ bad :: rest ∧
          (∀ b ∈ good, batchOk env b = true) ∧ batchOk env bad = false ∧
          (deployBatches env wm k fs cs bs).fs =
            (good ++ [bad]).foldl (writeBatchFS env) fs ∧
          (deployBatches env wm k fs cs bs).events =
            eventsJoin env k (good ++ [bad])) := by
  induction bs with
  | nil =>
    intro k fs cs
    refine ⟨?_, ?_, ?_⟩ <;> simp [deployBatches, eventsJoin]
  | cons b rest ih =>
    intro k fs cs
    by_cases hb : batchOk env b = true
    · have hstep : deployBatches env wm k fs cs (b :: rest) =
          let o := deployBatches env wm (k + 1) (writeBatchFS env fs b)
            (notifyStatus env wm cs) rest
          ⟨o.res, o.fs, o.cs, batchEvents env k b ++ o.events⟩ := by
        simp [deployBatches, hb]
      set cs' : ConnState := notifyStatus env wm cs with hcs'
      rcases ih (k + 1) (writeBatchFS env fs b) cs' with ⟨ih1, ih2, ih3⟩
      rw [hstep]
      refine ⟨?_, ?_, ?_⟩
      · simp only []
        constructor
        · intro hr b' hb'
          rcases List.mem_cons.mp hb' with he | he
          · subst he; exact hb
          · exact (ih1.mp hr) b' he
        · intro hall
          exact ih1.mpr (fun b' hb' => hall b' (List.mem_cons_of_mem b hb'))
      · intro hr
        simp only [] at hr
        rcases ih2 hr with ⟨hfs, hev⟩
        refine ⟨?_, ?_⟩
        · simp only [List.foldl_cons]
          exact hfs
        · show batchEvents env k b ++ _ = eventsJoin env k (b :: rest)
          rw [hev]
          rfl
      · intro hr
        simp only [] at hr
        rcases ih3 hr with ⟨good, bad, rest', heq, hgood, hbad, hfs, hev⟩
        refine ⟨b :: good, bad, rest', ?_, ?_, hbad, ?_, ?_⟩
        · rw [List.cons_append, heq]
        · intro b' hb'
          rcases List.mem_cons.mp hb' with he | he
          · subst he; exact hb
          · exact hgood b' he
        · show (deployBatches env wm (k + 1) (writeBatchFS env fs b) cs' rest).fs = _
          rw [hfs, List.cons_append, List.foldl_cons]
        · show batchEvents env k b ++ _ = _
          rw [hev, List.cons_append]
          rfl
    · have hstep : deployBatches env wm k fs cs (b :: rest) =
          ⟨false, writeBatchFS env fs b, cs, batchEvents env k b⟩ := by
        simp [deployBatches, hb]
      rw [hstep]
      refine ⟨?_, ?_, ?_⟩
      · constructor
        · intro hr; cases hr
        · intro hall
          exact absurd (hall b (List.mem_cons_self b rest)) hb
      · intro hr; cases hr
      · intro _
        refine ⟨[], b, rest, rfl, by simp, by simpa using hb, ?_, ?_⟩
        · simp
        · simp [eventsJoin]

lemma mem_of_getElem?_eq_some {α : Type _} {l : List α} {i : Nat} {a : α}
    (h : l[i]? = some a) : a ∈ l := by
  rcases List.getElem?_eq_some.mp h with ⟨hl, he⟩
  exact he ▸ List.getElem_mem hl

lemma batchIdx_mem_batchEvents {env : Env} {k : Nat}
    {b : List (String × String)} {e : DEvent}
    (h : e ∈ batchEvents env k b) : e.batchIdx = k := by
  rcases List.mem_append.mp h with h | h <;>
    (rcases List.mem_map.mp h with ⟨pc, -, rfl⟩; rfl)

lemma batchIdx_mem_eventsJoin {env : Env} (bs : List (List (String × String))) :
    ∀ {k : Nat} {e : DEvent}, e ∈ eventsJoin env k bs → k ≤ e.batchIdx := by
  induction bs with
  | nil =>
    intro k e h
    simp [eventsJoin] at h
  | cons b rest ih =>
    intro k e h
    simp only [eventsJoin] at h
    rcases List.mem_append.mp h with h | h
    · rw [batchIdx_mem_batchEvents h]
    · have := ih h
      omega

lemma eventsJoin_mono (env : Env) (bs : List (List (String × String))) :
    ∀ (k i j : Nat) (e₁ e₂ : DEvent), i ≤ j →
      (eventsJoin env k bs)[i]? = some e₁ →
      (eventsJoin env k bs)[j]? = some e₂ →
      e₁.batchIdx ≤ e₂.batchIdx := by
  induction bs with
  | nil =>
    intro k i j e₁ e₂ _ h₁ _
    simp [eventsJoin] at h₁
  | cons b rest ih =>
    intro k i j e₁ e₂ hij h₁ h₂
    simp only [eventsJoin] at h₁ h₂
    by_cases hj : j < (batchEvents env k b).length
    · have hi : i < (batchEvents env k b).length := lt_of_le_of_lt hij hj
      rw [List.getElem?_append_left hi] at h₁
      rw [List.getElem?_append_left hj] at h₂
      rw [batchIdx_mem_batchEvents (mem_of_getElem?_eq_some h₁),
        batchIdx_mem_batchEvents (mem_of_getElem?_eq_some h₂)]
    · have hj' : (batchEvents env k b).length ≤ j := Nat.not_lt.mp hj
      rw [List.getElem?_append_right hj'] at h₂
      have h₂m : k + 1 ≤ e₂.batchIdx :=
        batchIdx_mem_eventsJoin rest (mem_of_getElem?_eq_some h₂)
      by_cases hi : i < (batchEvents env k b).length
      · rw [List.getElem?_append_left hi] at h₁
        rw [batchIdx_mem_batchEvents (mem_of_getElem?_eq_some h₁)]
        omega
      · have hi' : (batchEvents env k b).length ≤ i := Nat.not_lt.mp hi
        rw [List.getElem?_append_right hi'] at h₁
        exact ih (k + 1) _ _ e₁ e₂ (by omega) h₁ h₂

lemma takeWhile_all {α : Type} (p : α → Bool) (l : List α)
    (h : ∀ a ∈ l, p a = true) : l.takeWhile p = l := by
  induction l with
  | nil => rfl
  | cons a rest ih =>
    rw [List.takeWhile_cons, if_pos (h a (List.mem_cons_self a rest)),
      ih (fun a' h' => h a' (List.mem_cons_of_mem a h'))]

lemma eventsJoin_complete (env : Env) (bs : List (List (String × String))) :
    ∀ (k i : Nat) (b : List (String × String)) (pc : String × String),
      bs[i]? = some b → pc ∈ b →
      DEvent.issue (k + i) pc.1 ∈ eventsJoin env k bs ∧
      (batchOk env b = true → DEvent.ack (k + i) pc.1 ∈ eventsJoin env k bs) := by
  induction bs with
  | nil =>
    intro k i b pc h
    simp at h
  | cons b0 rest ih =>
    intro k i b pc hget hmem
    cases i with
    | zero =>
      have hb : b0 = b := by simpa using hget
      subst hb
      constructor
      · simp only [eventsJoin]
        apply List.mem_append_left
        simp only [batchEvents]
        apply List.mem_append_left
        rw [Nat.add_zero]
        exact List.mem_map.mpr ⟨pc, hmem, rfl⟩
      · intro hok
        simp only [eventsJoin]
        apply List.mem_append_left
        simp only [batchEvents]
        apply List.mem_append_right
        rw [batchOk] at hok
        rw [takeWhile_all _ b0 (fun a ha => List.all_eq_true.mp hok a ha),
          Nat.add_zero]
        exact List.mem_map.mpr ⟨pc, hmem, rfl⟩
    | succ i' =>
      have hget' : rest[i']? = some b := by simpa using hget
      have hrec := ih (k + 1) i' b pc hget' hmem
      have harith : k + 1 + i' = k + (i' + 1) := by omega
      constructor
      · simp only [eventsJoin]
        apply List.mem_append_right
        rw [← harith]
        exact hrec.1
      · intro hok
        simp only [eventsJoin]
        apply List.mem_append_right
        rw [← harith]
        exact hrec.2 hok

/-- The paths whose upload task was created, read off the event trace. -/
def issuedPaths (evs : List DEvent) : List String :=
  evs.filterMap (fun e => match e with
    | .issue _ p => some p
    | .ack _ _ => none)

lemma issuedPaths_append (a b : List DEvent) :
    issuedPaths (a ++ b) = issuedPaths a ++ issuedPaths b := by
  simp [issuedPaths, List.filterMap_append]

lemma issuedPaths_issue_map (k : Nat) (l : List (String × String)) :
    issuedPaths (l.map (fun pc => DEvent.issue k pc.1)) = l.map Prod.fst := by
  induction l with
  | nil => rfl
  | cons pc rest ih =>
    simp only [List.map_cons, issuedPaths, List.filterMap_cons] at ih ⊢
    rw [ih]

lemma issuedPaths_ack_map (k : Nat) (l : List (String × String)) :
    issuedPaths (l.map (fun pc => DEvent.ack k pc.1)) = [] := by
  induction l with
  | nil => rfl
  | cons pc rest ih =>
    simp only [List.map_cons, issuedPaths, List.filterMap_cons] at ih ⊢
    exact ih

lemma issuedPaths_batchEvents (env : Env) (k : Nat)
    (b : List (String × String)) :
    issuedPaths (batchEvents env k b) = b.map Prod.fst := by
  rw [batchEvents, issuedPaths_append, issuedPaths_issue_map,
    issuedPaths_ack_map, List.append_nil]

lemma issuedPaths_eventsJoin (env : Env) (bs : List (List (String × String))) :
    ∀ k : Nat, issuedPaths (eventsJoin env k bs) = bs.flatten.map Prod.fst := by
  induction bs with
  | nil => intro k; rfl
  | cons b rest ih =>
    intro k
    simp only [eventsJoin, issuedPaths_append, issuedPaths_batchEvents, ih,
      List.flatten_cons, List.map_append]

lemma hotBatches_res (env : Env) (bs : List (List (String × String))) :
    ∀ fs : FS, (hotBatches env fs bs).res = true ↔ ∀ b ∈ bs, batchOk env b = true := by
  induction bs with
  | nil =>
    intro fs
    simp [hotBatches]
  | cons b rest ih =>
    intro fs
    by_cases hb : batchOk env b = true
    · have hstep : hotBatches env fs (b :: rest) =
          let o := hotBatches env (writeBatchFS env fs b) rest
          ⟨o.res, o.fs, b.map Prod.fst ++ o.uploaded⟩ := by
        simp [hotBatches, hb]
      rw [hstep]
      constructor
      · intro hr b' hb'
        rcases List.mem_cons.mp hb' with he | he
        · subst he; exact hb
        · exact ((ih (writeBatchFS env fs b)).mp hr) b' he
      · intro hall
        exact (ih (writeBatchFS env fs b)).mpr
          (fun b' hb' => hall b' (List.mem_cons_of_mem b hb'))
    · have hstep : hotBatches env fs (b :: rest) =
          ⟨false, writeBatchFS env fs b, b.map Prod.fst⟩ := by
        simp [hotBatches, hb]
      rw [hstep]
      constructor
      · intro hr; cases hr
      · intro hall
        exact absurd (hall b (List.mem_cons_self b rest)) hb

lemma hotBatches_uploaded_sub (env : Env) (bs : List (List (String × String))) :
    ∀ (fs : FS) (p : String), p ∈ (hotBatches env fs bs).uploaded →
      p ∈ bs.flatten.map Prod.fst := by
  induction bs with
  | nil =>
    intro fs p hp
    simp [hotBatches] at hp
  | cons b rest ih =>
    intro fs p hp
    by_cases hb : batchOk env b = true
    · have hstep : hotBatches env fs (b :: rest) =
          let o := hotBatches env (writeBatchFS env fs b) rest
          ⟨o.res, o.fs, b.map Prod.fst ++ o.uploaded⟩ := by
        simp [hotBatches, hb]
      rw [hstep] at hp
      rcases List.mem_append.mp hp with hp | hp
      · rw [List.flatten_cons, List.map_append]
        exact List.mem_append_left _ hp
      · rw [List.flatten_cons, List.map_append]
        exact List.mem_append_right _ (ih (writeBatchFS env fs b) p hp)
    · have hstep : hotBatches env fs (b :: rest) =
          ⟨false, writeBatchFS env fs b, b.map Prod.fst⟩ := by
        simp [hotBatches, hb]
      rw [hstep] at hp
      rw [List.flatten_cons, List.map_append]
      exact List.mem_append_left _ hp

lemma deploy_files_eq (st : ManagerState) (env : Env) (fs : FS) (cs : ConnState)
    (pid : String) (files : List (String × String)) (wm : Option String)
    (mode : String) (hreg : (lookupM st.active_sandboxes pid).isNone = false) :
    deploy_files st env fs cs pid files wm mode =
      ⟨(deployBatches env wm 0 fs (notifyStatus env wm cs) (chunk10 files)).res,
        { st with sandbox_metadata := setk st.sandbox_metadata pid ⟨some mode⟩ },
        (deployBatches env wm 0 fs (notifyStatus env wm cs) (chunk10 files)).fs,
        (deployBatches env wm 0 fs (notifyStatus env wm cs) (chunk10 files)).cs,
        (deployBatches env wm 0 fs (notifyStatus env wm cs) (chunk10 files)).events⟩ := by
  simp [deploy_files, hreg]

lemma deploy_files_active (st : ManagerState) (env : Env) (fs : FS)
    (cs : ConnState) (pid : String) (files : List (String × String))
    (wm : Option String) (mode : String) :
    (deploy_files st env fs cs pid files wm mode).st.active_sandboxes =
      st.active_sandboxes := by
  by_cases hreg : (lookupM st.active_sandboxes pid).isNone = true
  · simp [deploy_files, hreg]
  · rw [deploy_files_eq st env fs cs pid files wm mode
      (Bool.not_eq_true _ ▸ hreg)]

lemma mem_keys_setk_self {α : Type} (m : List (String × α)) (k : String) (v : α) :
    k ∈ keysM (setk m k v) := by
  rw [keysM_setk]
  by_cases hm : k ∈ keysM m
  · rw [if_pos hm]; exact hm
  · rw [if_neg hm]
    exact List.mem_append_right _ (List.mem_singleton.mpr rfl)

lemma keysM_setk_mem {α : Type} (m : List (String × α)) (k : String) (v : α)
    (h : k ∈ keysM m) : keysM (setk m k v) = keysM m := by
  rw [keysM_setk, if_pos h]

lemma cleanup_keys_sub (st : ManagerState) (env : Env) (pid : String) :
    keysM (cleanup_sandbox st env pid).1.active_sandboxes ⊆
      keysM st.active_sandboxes := by
  cases hl : lookupM st.active_sandboxes pid with
  | none =>
    rw [cleanup_missing st env pid hl]
    exact fun x hx => hx
  | some h =>
    by_cases hk : env.killOk h = true
    · rw [cleanup_found st env pid h hl hk]
      intro x hx
      rw [show (popAll st pid).active_sandboxes =
        popk st.active_sandboxes pid from rfl, keysM_popk] at hx
      exact mem_of_mem_eraseKey hx
    · rw [cleanup_kill_fail st env pid h hl (by simpa using hk)]
      exact fun x hx => hx

lemma enforce_keys_sub (st : ManagerState) (env : Env) (st₁ : ManagerState)
    (ks : List Nat) (he : enforce_sandbox_limit st env = .ok (st₁, ks)) :
    keysM st₁.active_sandboxes ⊆ keysM st.active_sandboxes := by
  by_cases hat : st.max_sandboxes ≤ st.active_sandboxes.length
  · cases hpm : pyMin st.last_activity with
    | none =>
      rw [enforce_empty st env hat hpm] at he
      cases he
    | some lru =>
      rw [enforce_at_limit st env lru hat hpm] at he
      injection he with h1
      have h2 : st₁ = (cleanup_sandbox st env lru.1).1 := by
        rw [h1]
      rw [h2]
      exact cleanup_keys_sub st env lru.1
  · rw [enforce_below st env (Nat.not_le.mp hat)] at he
    injection he with h1
    injection h1 with ha hb
    rw [← ha]
    exact fun x hx => hx

lemma create_res_ok (st : ManagerState) (env : Env) (pid : String) (sid : String)
    (h : (create_sandbox st env pid).res = .ok sid) :
    env.createOk = true ∧ sid = env.newSandboxId ∧
      ∃ st₁ ks, enforce_sandbox_limit st env = .ok (st₁, ks) ∧
        (create_sandbox st env pid).st = registerAll st₁ env pid := by
  cases he : enforce_sandbox_limit st env with
  | error e =>
    rw [create_of_enforce_error st env pid e he] at h
    cases h
  | ok p =>
    obtain ⟨st₁, ks⟩ := p
    rw [create_of_enforce_ok st env pid st₁ ks he] at h ⊢
    by_cases hc : env.createOk = true
    · rw [if_pos hc] at h ⊢
      cases h
      exact ⟨hc, rfl, st₁, ks, rfl, rfl⟩
    · rw [if_neg hc] at h
      cases h

lemma create_fail_not_ok (st : ManagerState) (env : Env) (pid : String)
    (hc : env.createOk = false) :
    ∀ sid, (create_sandbox st env pid).res ≠ .ok sid := by
  intro sid h
  rcases create_res_ok st env pid sid h with ⟨hok, -⟩
  rw [hc] at hok
  cases hok

lemma create_fail_keys_sub (st : ManagerState) (env : Env) (pid : String)
    (hc : env.createOk = false) :
    keysM (create_sandbox st env pid).st.active_sandboxes ⊆
      keysM st.active_sandboxes := by
  cases he : enforce_sandbox_limit st env with
  | error e =>
    rw [create_of_enforce_error st env pid e he]
    intro x hx
    exact hx
  | ok p =>
    obtain ⟨st₁, ks⟩ := p
    rw [create_of_enforce_ok st env pid st₁ ks he]
    rw [if_neg (by simp [hc])]
    exact enforce_keys_sub st env st₁ ks he

lemma create_ok_registers (st : ManagerState) (env : Env) (pid : String)
    (sid : String) (h : (create_sandbox st env pid).res = .ok sid) :
    pid ∈ keysM (create_sandbox st env pid).st.active_sandboxes ∧
    pid ∈ keysM (create_sandbox st env pid).st.sandbox_ids ∧
    pid ∈ keysM (create_sandbox st env pid).st.sandbox_processes ∧
    pid ∈ keysM (create_sandbox st env pid).st.last_activity ∧
    pid ∈ keysM (create_sandbox st env pid).st.sandbox_metadata := by
  rcases create_res_ok st env pid sid h with ⟨-, -, st₁, ks, -, hst⟩
  rw [hst]
  exact ⟨mem_keys_setk_self _ pid _, mem_keys_setk_self _ pid _,
    mem_keys_setk_self _ pid _, mem_keys_setk_self _ pid _,
    mem_keys_setk_self _ pid _⟩

lemma registryInv_deploy (st : ManagerState) (env : Env) (fs : FS)
    (cs : ConnState) (pid : String) (files : List (String × String))
    (wm : Option String) (mode : String) (hinv : RegistryInv st) :
    RegistryInv (deploy_files st env fs cs pid files wm mode).st := by
  by_cases hreg : (lookupM st.active_sandboxes pid).isNone = true
  · simp only [deploy_files, hreg, if_pos]
    exact hinv
  · rw [deploy_files_eq st env fs cs pid files wm mode
      (Bool.not_eq_true _ ▸ hreg)]
    rcases hinv with ⟨hnd, h1, h2, h3, h4⟩
    have hp : pid ∈ keysM st.active_sandboxes := by
      rw [← lookupM_isSome_iff]
      cases hl : lookupM st.active_sandboxes pid with
      | none => rw [hl] at hreg; exact absurd rfl hreg
      | some h => rfl
    have hp4 : pid ∈ keysM st.sandbox_metadata := by rwa [h4]
    exact ⟨hnd, h1, h2, h3, by
      show keysM (setk st.sandbox_metadata pid ⟨some mode⟩) = _
      rw [keysM_setk_mem _ _ _ hp4, h4]⟩

lemma registryInv_recreate (st : ManagerState) (env : Env) (pid : String)
    (hinv : RegistryInv st) :
    RegistryInv (recreate_sandbox_from_db st env pid).2 := by
  unfold recreate_sandbox_from_db
  by_cases hemp : (env.dbFiles pid).isEmpty = true
  · simp only [hemp, if_pos]
    exact hinv
  · simp only [hemp]
    rw [if_neg (by simp)]
    have hc := registryInv_create st env pid hinv
    cases hres : (create_sandbox st env pid).res with
    | error e => exact hc
    | ok sid =>
      have hd := registryInv_deploy (create_sandbox st env pid).st env []
        ⟨[], []⟩ pid (env.dbFiles pid) none env.dbMode hc
      by_cases hinst : (install_dependencies
          (deploy_files (create_sandbox st env pid).st env [] ⟨[], []⟩ pid
            (env.dbFiles pid) none env.dbMode).st pid env.dbMode).success = true
      · simp only [hinst]
        by_cases hsrv : (start_servers
            (deploy_files (create_sandbox st env pid).st env [] ⟨[], []⟩ pid
              (env.dbFiles pid) none env.dbMode).st env pid).success = true
        · simp only [hsrv]
          simpa using hd
        · simp only [eq_false_of_ne_true hsrv]
          simpa using hd
      · simp only [eq_false_of_ne_true hinst]
        simpa using hd

lemma registryInv_get_active (st : ManagerState) (env : Env) (pid : String)
    (hinv : RegistryInv st) :
    RegistryInv (get_active_sandbox st env pid).2 := by
  unfold get_active_sandbox
  cases hl : lookupM st.active_sandboxes pid with
  | none => exact registryInv_recreate st env pid hinv
  | some h =>
    by_cases hp : check_sandbox_health env h = true
    · simp only [hp, if_pos]
      rcases hinv with ⟨hnd, h1, h2, h3, h4⟩
      have hpk : pid ∈ keysM st.last_activity := by
        rw [h3, ← lookupM_isSome_iff, hl]
        rfl
      exact ⟨hnd, h1, h2, by
        show keysM (setk st.last_activity pid env.now) = _
        rw [keysM_setk_mem _ _ _ hpk, h3], h4⟩
    · simp only [eq_false_of_ne_true hp]
      rw [if_neg (by simp [eq_false_of_ne_true hp])]
      exact registryInv_recreate (cleanup_sandbox st env pid).1 env pid
        (registryInv_cleanup st env pid hinv)

/-- A fully cooperative remote world, the base of all concrete runs. -/
def envBase : Env :=
  { now := 0, createOk := true, newHandle := 1, newSandboxId := "sb-1",
    killOk := fun _ => true, writeOk := fun _ => true, readOk := fun _ => true,
    sendOk := fun _ => true, probeOk := fun _ => true,
    existsRes := fun _ => true, frontendReady := true, hostOk := true,
    host := "h0", dbFiles := fun _ => [], dbMode := "fullstack" }

/-- A registry tracking exactly one project `p1` with sandbox handle 1. -/
def stOne : ManagerState :=
  { max_sandboxes := 10
    active_sandboxes := [("p1", 1)]
    sandbox_ids := [("p1", "sb-1")]
    sandbox_processes := [("p1", [])]
    last_activity := [("p1", 0)]
    sandbox_metadata := [("p1", ⟨none⟩)] }

/-- A world in which only the frontend package manifest exists. -/
def envC2 : Env :=
  { envBase with existsRes := fun p => p == "frontend/package.json" }

/-- C2 counterexample: on a registered project whose sandbox filesystem holds
a frontend manifest but no backend manifest, `install_dependencies` (which
runs in template mode) still reports `backend_installed = True`, refuting the
claimed `backend_installed = False`. -/
theorem c2_counterexample :
    lookupM stOne.active_sandboxes "p1" = some 1 ∧
    envC2.existsRes "frontend/package.json" = true ∧
    envC2.existsRes "backend/package.json" = false ∧
    (install_dependencies stOne "p1" "fullstack").backend_installed = true ∧
    (install_dependencies stOne "p1" "fullstack").success = true := by
  refine ⟨by decide, by decide, by decide, rfl, rfl⟩

/-- C2 amended: `install_dependencies` is a template-mode no-op that returns
`success = True` and every per-tier flag `True` unconditionally, for every
project and mode, without consulting the sandbox filesystem and without
attempting any installation. -/
theorem c2_template_mode (st : ManagerState) (pid mode : String) :
    install_dependencies st pid mode =
      { success := true, frontend_installed := true, backend_installed := true,
        ai_installed := true,
        message := some "Dependencies pre-installed in template" } := rfl

/-- C9: every manager operation preserves the invariant that the five
registry dicts share one key set; `create_sandbox` registers a project in all
five only after remote allocation succeeded and an allocation failure
registers nothing; `cleanup_sandbox` removes the project from all five when
termination succeeds and leaves all five entries in place when termination
raises. -/
theorem c9_registry_consistency :
    (∀ (st : ManagerState) (env : Env) (pid : String), RegistryInv st →
      RegistryInv (create_sandbox st env pid).st ∧
      RegistryInv (cleanup_sandbox st env pid).1 ∧
      RegistryInv (recreate_sandbox_from_db st env pid).2 ∧
      RegistryInv (get_active_sandbox st env pid).2 ∧
      ∀ (fs : FS) (cs : ConnState) (files : List (String × String))
        (wm : Option String) (mode : String),
        RegistryInv (deploy_files st env fs cs pid files wm mode).st) ∧
    (∀ (st : ManagerState) (env : Env) (pid sid : String),
      (create_sandbox st env pid).res = .ok sid →
      pid ∈ keysM (create_sandbox st env pid).st.active_sandboxes ∧
      pid ∈ keysM (create_sandbox st env pid).st.sandbox_ids ∧
      pid ∈ keysM (create_sandbox st env pid).st.sandbox_processes ∧
      pid ∈ keysM (create_sandbox st env pid).st.last_activity ∧
      pid ∈ keysM (create_sandbox st env pid).st.sandbox_metadata) ∧
    (∀ (st : ManagerState) (env : Env) (pid : String), env.createOk = false →
      (∀ sid, (create_sandbox st env pid).res ≠ .ok sid) ∧
      keysM (create_sandbox st env pid).st.active_sandboxes ⊆
        keysM st.active_sandboxes) ∧
    (∀ (st : ManagerState) (env : Env) (pid : String) (h : Nat),
      RegistryInv st → lookupM st.active_sandboxes pid = some h →
      (env.killOk h = true →
        lookupM (cleanup_sandbox st env pid).1.active_sandboxes pid = none ∧
        lookupM (cleanup_sandbox st env pid).1.sandbox_ids pid = none ∧
        lookupM (cleanup_sandbox st env pid).1.sandbox_processes pid = none ∧
        lookupM (cleanup_sandbox st env pid).1.last_activity pid = none ∧
        lookupM (cleanup_sandbox st env pid).1.sandbox_metadata pid = none) ∧
      (env.killOk h = false → (cleanup_sandbox st env pid).1 = st)) := by
  refine ⟨?_, ?_, ?_, ?_⟩
  · intro st env pid hinv
    exact ⟨registryInv_create st env pid hinv,
      registryInv_cleanup st env pid hinv,
      registryInv_recreate st env pid hinv,
      registryInv_get_active st env pid hinv,
      fun fs cs files wm mode =>
        registryInv_deploy st env fs cs pid files wm mode hinv⟩
  · intro st env pid sid h
    exact create_ok_registers st env pid sid h
  · intro st env pid hc
    exact ⟨create_fail_not_ok st env pid hc, create_fail_keys_sub st env pid hc⟩
  · intro st env pid h hinv hl
    rcases hinv with ⟨hnd, h1, h2, h3, h4⟩
    constructor
    · intro hk
      rw [cleanup_found st env pid h hl hk]
      refine ⟨lookupM_popk_self _ _ hnd, ?_, ?_, ?_, ?_⟩
      · exact lookupM_popk_self _ _ (h1 ▸ hnd)
      · exact lookupM_popk_self _ _ (h2 ▸ hnd)
      · exact lookupM_popk_self _ _ (h3 ▸ hnd)
      · exact lookupM_popk_self _ _ (h4 ▸ hnd)
    · intro hk
      rw [cleanup_kill_fail st env pid h hl hk]

/-- Witness for C9 at a concrete registry and world. -/
theorem c9_registry_consistency_witness :
    RegistryInv stOne ∧
    RegistryInv (create_sandbox stOne envBase "p2").st ∧
    lookupM stOne.active_sandboxes "p1" = some 1 ∧
    ((envBase.killOk 1 = true →
        lookupM (cleanup_sandbox stOne envBase "p1").1.active_sandboxes "p1" = none ∧
        lookupM (cleanup_sandbox stOne envBase "p1").1.sandbox_ids "p1" = none ∧
        lookupM (cleanup_sandbox stOne envBase "p1").1.sandbox_processes "p1" = none ∧
        lookupM (cleanup_sandbox stOne envBase "p1").1.last_activity "p1" = none ∧
        lookupM (cleanup_sandbox stOne envBase "p1").1.sandbox_metadata "p1" = none) ∧
      (envBase.killOk 1 = false → (cleanup_sandbox stOne envBase "p1").1 = stOne)) :=
  ⟨by decide, (c9_registry_consistency.1 stOne envBase "p2" (by decide)).1,
    by decide,
    c9_registry_consistency.2.2.2 stOne envBase "p1" 1 (by decide) (by decide)⟩

/-- A second creation call whose eviction kill raises. -/
def envC1b : Env :=
  { envBase with
      newHandle := 2
      newSandboxId := "sb-2"
      killOk := fun _ => false }

/-- C1 counterexample: with `max_sandboxes = 1`, the sequence
`create_sandbox "p1"` then `create_sandbox "p2"` — where the eviction's
`kill` raises — leaves two projects with live handles in the registry,
exceeding the configured maximum. -/
theorem c1_counterexample :
    (initState 1).max_sandboxes = 1 ∧
    (runCreates (initState 1)
      [("p1", envBase), ("p2", envC1b)]).active_sandboxes.length = 2 := by
  refine ⟨rfl, by decide⟩

/-- The eviction behaviour of one `create_sandbox` call made at capacity:
the targeted session has globally minimal `last_activity`, its sandbox is
killed, and (kill succeeding) it leaves the registry. -/
def EvictionSpec (st : ManagerState) (env : Env) (pid : String) : Prop :=
  ∃ lru h, pyMin st.last_activity = some lru ∧ lru ∈ st.last_activity ∧
    (∀ kv ∈ st.last_activity, lru.2 ≤ kv.2) ∧
    lookupM st.active_sandboxes lru.1 = some h ∧
    (create_sandbox st env pid).kills = [h] ∧
    lookupM (cleanup_sandbox st env lru.1).1.active_sandboxes lru.1 = none

/-- C1 amended: provided every sandbox termination succeeds, the number of
live handles after any sequence of `create_sandbox` calls on a fresh manager
never exceeds the configured maximum, and a call arriving at capacity evicts
the session with globally minimal `last_activity`, terminating its sandbox
and dropping it from the registry; when a termination raises, the eviction
is a registry no-op and the bound can be exceeded (see the counterexample). -/
theorem c1_capacity (maxS : Nat) (calls : List (String × Env))
    (st : ManagerState) (env : Env) (pid : String)
    (hkills : ∀ c ∈ calls, ∀ h, c.2.killOk h = true)
    (hinv : RegistryInv st) (hmax1 : 1 ≤ st.max_sandboxes)
    (hat : st.max_sandboxes ≤ st.active_sandboxes.length)
    (hkill : ∀ h, env.killOk h = true) :
    (runCreates (initState maxS) calls).active_sandboxes.length ≤ maxS ∧
    EvictionSpec st env pid := by
  constructor
  · have hinit : RegistryInv (initState maxS) := by
      refine ⟨?_, ?_, ?_, ?_, ?_⟩ <;> simp [initState, keysM]
    have h0 : (initState maxS).active_sandboxes.length ≤
        (initState maxS).max_sandboxes := by
      simp [initState]
    have hr := runCreates_inv calls (initState maxS) hkills hinit h0
    have hb := hr.2.1
    rwa [hr.2.2] at hb
  · have hne : st.last_activity ≠ [] := by
      intro hnil
      rcases hinv with ⟨-, -, -, h3, -⟩
      rw [hnil] at h3
      have : st.active_sandboxes = [] := by
        cases hact : st.active_sandboxes with
        | nil => rfl
        | cons kv rest =>
          rw [hact] at h3
          cases h3
      rw [this] at hat
      simp at hat
      omega
    rcases pyMin_spec st.last_activity hne with ⟨lru, hpm, hmem, hmin⟩
    have hkey : lru.1 ∈ keysM st.active_sandboxes := by
      have hk1 : lru.1 ∈ keysM st.last_activity := mem_keysM_of_mem hmem
      rcases hinv with ⟨-, -, -, h3, -⟩
      rwa [h3] at hk1
    rcases lookupM_mem_some hkey with ⟨hh, hl⟩
    refine ⟨lru, hh, hpm, hmem, hmin, hl, ?_, ?_⟩
    · have he := enforce_at_limit st env lru hat hpm
      rw [cleanup_found st env lru.1 hh hl (hkill hh)] at he
      rw [create_of_enforce_ok st env pid _ _ he]
      by_cases hc : env.createOk = true
      · rw [if_pos hc]
      · rw [if_neg hc]
    · rw [cleanup_found st env lru.1 hh hl (hkill hh)]
      exact lookupM_popk_self _ _ hinv.1

/-- Witness for C1 at a concrete one-slot manager already at capacity. -/
def stOneCap : ManagerState := { stOne with max_sandboxes := 1 }

/-- Witness for C1: the amended capacity bound and eviction property at a
concrete manager, call sequence, and world. -/
theorem c1_capacity_witness :
    RegistryInv stOneCap ∧
    1 ≤ stOneCap.max_sandboxes ∧
    stOneCap.max_sandboxes ≤ stOneCap.active_sandboxes.length ∧
    ((runCreates (initState 1)
        [("p1", envBase), ("p2", envBase)]).active_sandboxes.length ≤ 1 ∧
      EvictionSpec stOneCap envBase "p2") := by
  refine ⟨by decide, by decide, by decide, ?_⟩
  refine c1_capacity 1 [("p1", envBase), ("p2", envBase)] stOneCap envBase "p2"
    ?_ (by decide) (by decide) (by decide) (fun h => rfl)
  intro c hc h
  rcases List.mem_cons.mp hc with rfl | hc
  · rfl
  · rcases List.mem_cons.mp hc with rfl | hc
    · rfl
    · simp at hc

lemma start_servers_reg (st : ManagerState) (env : Env) (pid : String) (h : Nat)
    (hl : lookupM st.active_sandboxes pid = some h) :
    start_servers st env pid =
      if env.existsRes "frontend" && !env.frontendReady then
        ⟨false, none, false, false, false⟩
      else
        ⟨true,
          if env.existsRes "frontend" && env.hostOk then
            some ("https://" ++ env.host)
          else none,
          env.existsRes "frontend", env.existsRes "backend",
          env.existsRes "ai_services"⟩ := by
  simp [start_servers, hl]

lemma recreate_empty (st : ManagerState) (env : Env) (pid : String)
    (he : (env.dbFiles pid).isEmpty = true) :
    recreate_sandbox_from_db st env pid = (none, st) := by
  simp [recreate_sandbox_from_db, he]

lemma recreate_res_error (st : ManagerState) (env : Env) (pid : String)
    (e : String) (hres : (create_sandbox st env pid).res = .error e)
    (hne : (env.dbFiles pid).isEmpty = false) :
    recreate_sandbox_from_db st env pid =
      (none, (create_sandbox st env pid).st) := by
  unfold recreate_sandbox_from_db
  simp only [hne, Bool.false_eq_true, if_false, hres]

lemma recreate_create_fail (st : ManagerState) (env : Env) (pid : String)
    (hc : env.createOk = false) (hne : (env.dbFiles pid).isEmpty = false) :
    recreate_sandbox_from_db st env pid =
      (none, (create_sandbox st env pid).st) := by
  cases hres : (create_sandbox st env pid).res with
  | error e => exact recreate_res_error st env pid e hres hne
  | ok sid => exact absurd hres (create_fail_not_ok st env pid hc sid)

lemma recreate_ok_run (st : ManagerState) (env : Env) (pid : String)
    (sid : String) (hres : (create_sandbox st env pid).res = .ok sid)
    (hne : (env.dbFiles pid).isEmpty = false) :
    recreate_sandbox_from_db st env pid =
      (let d := deploy_files (create_sandbox st env pid).st env [] ⟨[], []⟩ pid
        (env.dbFiles pid) none env.dbMode
      if !(start_servers d.st env pid).success then (none, d.st)
      else (lookupM d.st.active_sandboxes pid, d.st)) := by
  unfold recreate_sandbox_from_db
  simp only [hne, Bool.false_eq_true, if_false, hres, install_dependencies,
    Bool.not_true]

lemma create_ok_lookup (st : ManagerState) (env : Env) (pid : String)
    (sid : String) (hres : (create_sandbox st env pid).res = .ok sid) :
    lookupM (create_sandbox st env pid).st.active_sandboxes pid =
      some env.newHandle := by
  rcases create_res_ok st env pid sid hres with ⟨-, -, st₁, ks, -, hst⟩
  rw [hst]
  exact lookupM_setk_self _ _ _

lemma create_below_ok (st : ManagerState) (env : Env) (pid : String)
    (hlt : st.active_sandboxes.length < st.max_sandboxes)
    (hc : env.createOk = true) :
    (create_sandbox st env pid).res = .ok env.newSandboxId := by
  rw [create_of_enforce_ok st env pid st [] (enforce_below st env hlt),
    if_pos hc]

/-- C3 amended: recreation returns null when the store holds no files for
the project, when sandbox allocation fails, or when server start fails; the
boolean result of the deploy stage is discarded (see the counterexample), so
below capacity with allocation succeeding and the frontend (if present)
coming up, recreation returns the freshly created handle regardless of
whether the deploy stage succeeded. -/
theorem c3_recreation (st : ManagerState) (env : Env) (pid : String) :
    ((env.dbFiles pid).isEmpty = true →
      recreate_sandbox_from_db st env pid = (none, st)) ∧
    (env.createOk = false → (recreate_sandbox_from_db st env pid).1 = none) ∧
    (env.existsRes "frontend" = true → env.frontendReady = false →
      (recreate_sandbox_from_db st env pid).1 = none) ∧
    (st.active_sandboxes.length < st.max_sandboxes →
      (env.dbFiles pid).isEmpty = false → env.createOk = true →
      (env.existsRes "frontend" = true → env.frontendReady = true) →
      (recreate_sandbox_from_db st env pid).1 = some env.newHandle) := by
  refine ⟨?_, ?_, ?_, ?_⟩
  · intro he
    exact recreate_empty st env pid he
  · intro hc
    by_cases hne : (env.dbFiles pid).isEmpty = true
    · rw [recreate_empty st env pid hne]
    · rw [recreate_create_fail st env pid hc (eq_false_of_ne_true hne)]
  · intro hf hready
    by_cases hne : (env.dbFiles pid).isEmpty = true
    · rw [recreate_empty st env pid hne]
    · cases hres : (create_sandbox st env pid).res with
      | error e =>
        rw [recreate_res_error st env pid e hres (eq_false_of_ne_true hne)]
      | ok sid =>
        rw [recreate_ok_run st env pid sid hres (eq_false_of_ne_true hne)]
        have hlk : lookupM (deploy_files (create_sandbox st env pid).st env []
            ⟨[], []⟩ pid (env.dbFiles pid) none env.dbMode).st.active_sandboxes
            pid = some env.newHandle := by
          rw [deploy_files_active]
          exact create_ok_lookup st env pid sid hres
        rw [show (deploy_files (create_sandbox st env pid).st env [] ⟨[], []⟩
          pid (env.dbFiles pid) none env.dbMode).st.active_sandboxes =
          (deploy_files (create_sandbox st env pid).st env [] ⟨[], []⟩ pid
          (env.dbFiles pid) none env.dbMode).st.active_sandboxes from rfl] at hlk
        simp only [start_servers_reg _ env pid env.newHandle hlk, hf, hready]
        simp
  · intro hlt hne hc hfr
    have hres := create_below_ok st env pid hlt hc
    rw [recreate_ok_run st env pid env.newSandboxId hres hne]
    have hlk : lookupM (deploy_files (create_sandbox st env pid).st env []
        ⟨[], []⟩ pid (env.dbFiles pid) none env.dbMode).st.active_sandboxes
        pid = some env.newHandle := by
      rw [deploy_files_active]
      exact create_ok_lookup st env pid env.newSandboxId hres
    simp only [start_servers_reg _ env pid env.newHandle hlk]
    by_cases hf : env.existsRes "frontend" = true
    · rw [hfr hf] at *
      simp [hf, hlk]
    · have hf' : env.existsRes "frontend" = false := eq_false_of_ne_true hf
      simp [hf', hlk]

/-- A world whose store holds one file but whose writes all raise. -/
def envC3 : Env :=
  { envBase with
      dbFiles := fun _ => [("app.txt", "x")]
      writeOk := fun _ => false
      newHandle := 7
      newSandboxId := "sb-7" }

/-- C3 counterexample: a recreation run in which the deploy stage fails
(every file write raises, so `deploy_files` returns `False`) still returns a
non-null sandbox handle, because `_recreate_sandbox_from_db` never consults
the deploy result. -/
theorem c3_counterexample :
    (deploy_files (create_sandbox (initState 10) envC3 "p1").st envC3 []
      ⟨[], []⟩ "p1" (envC3.dbFiles "p1") none envC3.dbMode).res = false ∧
    (recreate_sandbox_from_db (initState 10) envC3 "p1").1 = some 7 := by
  refine ⟨by decide, by decide⟩

/-- A cooperative world whose store holds one file for every project. -/
def envC3w : Env :=
  { envBase with dbFiles := fun _ => [("a.txt", "x")] }

/-- Witness for C3 at a concrete fresh manager and non-empty store. -/
theorem c3_recreation_witness :
    (envC3w.dbFiles "p9").isEmpty = false ∧ envC3w.createOk = true ∧
    (initState 10).active_sandboxes.length < (initState 10).max_sandboxes ∧
    (recreate_sandbox_from_db (initState 10) envC3w "p9").1 =
      some envC3w.newHandle :=
  ⟨by decide, rfl, by decide,
    (c3_recreation (initState 10) envC3w "p9").2.2.2 (by decide) (by decide)
      rfl (fun _ => rfl)⟩

/-- What one probe-failed `get_active_sandbox` call does: cleanup is
attempted (the kill call is made), the registry entry disappears only when
the kill succeeds, and recreation is then attempted from the cleaned state. -/
def C4ProbeFailSpec (st : ManagerState) (env : Env) (pid : String) (h : Nat) :
    Prop :=
  get_active_sandbox st env pid =
      recreate_sandbox_from_db (cleanup_sandbox st env pid).1 env pid ∧
  (cleanup_sandbox st env pid).2 = [h] ∧
  (env.killOk h = true → RegistryInv st →
    lookupM (cleanup_sandbox st env pid).1.active_sandboxes pid = none) ∧
  (env.killOk h = false → (cleanup_sandbox st env pid).1 = st)

/-- C4 amended: an untracked project goes straight to recreation from the
store; a tracked project whose liveness probe fails has cleanup attempted
(the dead session disappears from the registry only when its termination
succeeds; a raising termination leaves the stale entries) followed by
recreation from the cleaned state; a tracked project whose probe succeeds
has `last_activity` refreshed to the current time and its tracked handle
returned unchanged. -/
theorem c4_liveness_dispatch (st : ManagerState) (env : Env) (pid : String) :
    (lookupM st.active_sandboxes pid = none →
      get_active_sandbox st env pid = recreate_sandbox_from_db st env pid) ∧
    (∀ h, lookupM st.active_sandboxes pid = some h → env.probeOk h = false →
      C4ProbeFailSpec st env pid h) ∧
    (∀ h, lookupM st.active_sandboxes pid = some h → env.probeOk h = true →
      get_active_sandbox st env pid =
        (some h,
          { st with last_activity := setk st.last_activity pid env.now })) := by
  refine ⟨?_, ?_, ?_⟩
  · intro hl
    simp [get_active_sandbox, hl]
  · intro h hl hp
    refine ⟨?_, ?_, ?_, ?_⟩
    · simp [get_active_sandbox, hl, check_sandbox_health, hp]
    · cases hk : env.killOk h with
      | true => rw [cleanup_found st env pid h hl hk]
      | false => rw [cleanup_kill_fail st env pid h hl hk]
    · intro hk hinv
      rw [cleanup_found st env pid h hl hk]
      exact lookupM_popk_self _ _ hinv.1
    · intro hk
      rw [cleanup_kill_fail st env pid h hl hk]
  · intro h hl hp
    simp [get_active_sandbox, hl, check_sandbox_health, hp]

/-- A world whose probe always fails and whose kill always raises. -/
def envC4 : Env :=
  { envBase with
      probeOk := fun _ => false
      killOk := fun _ => false }

/-- C4 counterexample: a tracked project with a failing liveness probe whose
termination raises is NOT fully cleaned up — after `get_active_sandbox`
returns null (no stored files), the stale session is still present in every
registry dict, refuting the claimed full cleanup. -/
theorem c4_counterexample :
    lookupM stOne.active_sandboxes "p1" = some 1 ∧
    envC4.probeOk 1 = false ∧
    (get_active_sandbox stOne envC4 "p1").1 = none ∧
    (get_active_sandbox stOne envC4 "p1").2 = stOne := by
  refine ⟨by decide, rfl, by decide, by decide⟩

/-- A world whose probe always fails but whose kill succeeds. -/
def envC4w : Env := { envBase with probeOk := fun _ => false }

/-- Witness for C4 at a concrete tracked project with a failing probe. -/
theorem c4_liveness_dispatch_witness :
    lookupM stOne.active_sandboxes "p1" = some 1 ∧
    envC4w.probeOk 1 = false ∧
    C4ProbeFailSpec stOne envC4w "p1" 1 :=
  ⟨by decide, rfl,
    (c4_liveness_dispatch stOne envC4w "p1").2.1 1 (by decide) rfl⟩

lemma isNone_false_of_isSome {α : Type} {o : Option α}
    (h : o.isSome = true) : o.isNone = false := by
  cases o with
  | none => cases h
  | some v => rfl

lemma hot_uploaded_char (st : ManagerState) (env : Env) (fs : FS)
    (pid : String) (updated : List (String × String)) :
    ∀ p ∈ (update_files_hot_reload st env fs pid updated).uploaded,
      ∃ c, (p, c) ∈ updated ∧ existingContent env fs p ≠ c := by
  intro p hp
  by_cases hreg : (lookupM st.active_sandboxes pid).isNone = true
  · simp [update_files_hot_reload, hreg] at hp
  · rw [update_files_hot_reload] at hp
    rw [if_neg hreg] at hp
    by_cases hch : (updated.filter
        (fun pc => !(existingContent env fs pc.1 == pc.2))).isEmpty = true
    · rw [if_pos hch] at hp
      simp at hp
    · rw [if_neg hch] at hp
      have hsub := hotBatches_uploaded_sub env
        (chunk10 (updated.filter
          (fun pc => !(existingContent env fs pc.1 == pc.2)))) fs p hp
      rw [chunk10_flatten] at hsub
      rcases List.mem_map.mp hsub with ⟨pc, hpc, hfst⟩
      rcases List.mem_filter.mp hpc with ⟨hmem, hpred⟩
      refine ⟨pc.2, ?_, ?_⟩
      · rw [← hfst]
        exact hmem
      · rw [← hfst]
        simpa using hpred

lemma mem_unique_of_nodup_fst {l : List (String × String)}
    (hnd : (l.map Prod.fst).Nodup) {p c c' : String}
    (h1 : (p, c) ∈ l) (h2 : (p, c') ∈ l) : c = c' := by
  induction l with
  | nil => simp at h1
  | cons kv rest ih =>
    rw [List.map_cons, List.nodup_cons] at hnd
    obtain ⟨hh, hndr⟩ := hnd
    rcases List.mem_cons.mp h1 with he1 | he1 <;>
      rcases List.mem_cons.mp h2 with he2 | he2
    · rw [← he1] at he2
      exact (congrArg Prod.snd he2).symm
    · exfalso
      apply hh
      rw [show kv.1 = p from congrArg Prod.fst he1.symm]
      exact List.mem_map.mpr ⟨(p, c'), he2, rfl⟩
    · exfalso
      apply hh
      rw [show kv.1 = p from congrArg Prod.fst he2.symm]
      exact List.mem_map.mpr ⟨(p, c), he1, rfl⟩
    · exact ih hndr he1 he2

lemma hot_reload_unchanged (st : ManagerState) (env : Env) (fs : FS)
    (pid : String) (updated : List (String × String))
    (hreg : (lookupM st.active_sandboxes pid).isSome = true)
    (hsame : ∀ pc ∈ updated, existingContent env fs pc.1 = pc.2) :
    update_files_hot_reload st env fs pid updated = ⟨true, fs, []⟩ := by
  rw [update_files_hot_reload,
    if_neg (by simp [isNone_false_of_isSome hreg])]
  have hfil : updated.filter
      (fun pc => !(existingContent env fs pc.1 == pc.2)) = [] := by
    rw [List.filter_eq_nil_iff]
    intro pc hpc
    simp [hsame pc hpc]
  rw [hfil]
  rfl

/-- C5: on a registered project, a hot-reload call whose file map matches
the sandbox's current content for every path performs zero uploads and
reports success; in general a path is uploaded only when its incoming
content differs from the sandbox's current content. -/
theorem c5_hot_reload_noop (st : ManagerState) (env : Env) (fs : FS)
    (pid : String) (updated : List (String × String))
    (hreg : (lookupM st.active_sandboxes pid).isSome = true) :
    ((∀ pc ∈ updated, readSandbox env fs pc.1 = some pc.2) →
      update_files_hot_reload st env fs pid updated = ⟨true, fs, []⟩) ∧
    (∀ p ∈ (update_files_hot_reload st env fs pid updated).uploaded,
      ∃ c, (p, c) ∈ updated ∧ existingContent env fs p ≠ c) := by
  constructor
  · intro hsame
    refine hot_reload_unchanged st env fs pid updated hreg ?_
    intro pc hpc
    rw [existingContent, hsame pc hpc]
    rfl
  · exact hot_uploaded_char st env fs pid updated

/-- Witness for C5: a registered project, a one-file map matching the
sandbox content, zero uploads and success. -/
theorem c5_hot_reload_noop_witness :
    (lookupM stOne.active_sandboxes "p1").isSome = true ∧
    (∀ pc ∈ [("app.txt", "hello")], readSandbox envBase [("app.txt", "hello")]
      pc.1 = some pc.2) ∧
    update_files_hot_reload stOne envBase [("app.txt", "hello")] "p1"
      [("app.txt", "hello")] = ⟨true, [("app.txt", "hello")], []⟩ := by
  refine ⟨by decide, by decide, ?_⟩
  exact (c5_hot_reload_noop stOne envBase [("app.txt", "hello")] "p1"
    [("app.txt", "hello")] (by decide)).1 (by decide)

/-- C10: a path whose sandbox read raises is diffed against the empty
string; hence a not-yet-existing file sent with empty content is classified
unchanged and never uploaded, and a registered-project call consisting
solely of such files performs zero uploads and returns success. -/
theorem c10_missing_read_empty_diff (st : ManagerState) (env : Env) (fs : FS)
    (pid : String) (updated : List (String × String))
    (hreg : (lookupM st.active_sandboxes pid).isSome = true) :
    (∀ p, readSandbox env fs p = none → existingContent env fs p = "") ∧
    ((∀ pc ∈ updated, readSandbox env fs pc.1 = none ∧ pc.2 = "") →
      update_files_hot_reload st env fs pid updated = ⟨true, fs, []⟩) ∧
    ((updated.map Prod.fst).Nodup →
      ∀ p, (p, "") ∈ updated → readSandbox env fs p = none →
      p ∉ (update_files_hot_reload st env fs pid updated).uploaded) := by
  refine ⟨?_, ?_, ?_⟩
  · intro p h
    rw [existingContent, h]
    rfl
  · intro hall
    refine hot_reload_unchanged st env fs pid updated hreg ?_
    intro pc hpc
    rcases hall pc hpc with ⟨hrd, hemp⟩
    rw [existingContent, hrd, hemp]
    rfl
  · intro hnd p hmem hrd hp
    rcases hot_uploaded_char st env fs pid updated p hp with ⟨c, hc, hne⟩
    have hce : c = "" := mem_unique_of_nodup_fst hnd hc hmem
    apply hne
    rw [existingContent, hrd, hce]
    rfl

/-- Witness for C10: a registered project and a map holding one unreadable
file with empty content: unchanged, zero uploads, success. -/
theorem c10_missing_read_empty_diff_witness :
    (lookupM stOne.active_sandboxes "p1").isSome = true ∧
    (∀ pc ∈ [("new.txt", "")], readSandbox envBase ([] : FS) pc.1 = none ∧
      pc.2 = "") ∧
    update_files_hot_reload stOne envBase ([] : FS) "p1" [("new.txt", "")] =
      ⟨true, [], []⟩ := by
  refine ⟨by decide, by decide, ?_⟩
  exact (c10_missing_read_empty_diff stOne envBase ([] : FS) "p1"
    [("new.txt", "")] (by decide)).2.1 (by decide)

lemma batchOk_all_iff (env : Env) (files : List (String × String)) :
    (∀ b ∈ chunk10 files, batchOk env b = true) ↔
      (∀ pc ∈ files, env.writeOk (normPath pc.1) = true) := by
  constructor
  · intro h pc hpc
    rw [← chunk10_flatten files] at hpc
    rcases List.mem_flatten.mp hpc with ⟨b, hb, hpcb⟩
    exact List.all_eq_true.mp (h b hb) pc hpcb
  · intro h b hb
    rw [batchOk, List.all_eq_true]
    intro pc hpc
    refine h pc ?_
    rw [← chunk10_flatten files]
    exact List.mem_flatten.mpr ⟨b, hb, hpc⟩

/-- What C6 asserts of one `deploy_files` call on a registered project. -/
def C6Spec (st : ManagerState) (env : Env) (fs : FS) (cs : ConnState)
    (pid : String) (files : List (String × String)) (wm : Option String)
    (mode : String) : Prop :=
  ((deploy_files st env fs cs pid files wm mode).res = true ↔
    ∀ pc ∈ files, env.writeOk (normPath pc.1) = true) ∧
  ((deploy_files st env fs cs pid files wm mode).res = true →
    (files.map (fun pc => normPath pc.1)).Nodup →
    ∀ pc ∈ files, lookupM (deploy_files st env fs cs pid files wm mode).fs
      (normPath pc.1) = some pc.2) ∧
  ((deploy_files st env fs cs pid files wm mode).res = false →
    ∃ good bad rest, chunk10 files = good ++ bad :: rest ∧
      (∀ b ∈ good, batchOk env b = true) ∧
      batchOk env bad = false ∧
      issuedPaths (deploy_files st env fs cs pid files wm mode).events =
        (good ++ [bad]).flatten.map Prod.fst ∧
      ((files.map (fun pc => normPath pc.1)).Nodup →
        ∀ pc ∈ good.flatten,
          lookupM (deploy_files st env fs cs pid files wm mode).fs
            (normPath pc.1) = some pc.2))

/-- C6: on a registered project, `deploy_files` returns `True` exactly when
every file write succeeds; its final filesystem holds every file on success;
and on failure the issued uploads are exactly the fully acknowledged batch
prefix plus the failing batch — later batches are never issued — while the
files of the batches completed before the failure remain written (no
rollback). -/
theorem c6_deploy_abort (st : ManagerState) (env : Env) (fs : FS)
    (cs : ConnState) (pid : String) (files : List (String × String))
    (wm : Option String) (mode : String)
    (hreg : (lookupM st.active_sandboxes pid).isSome = true) :
    C6Spec st env fs cs pid files wm mode := by
  have heq := deploy_files_eq st env fs cs pid files wm mode
    (isNone_false_of_isSome hreg)
  rcases deployBatches_spec env wm (chunk10 files) 0 fs (notifyStatus env wm cs)
    with ⟨hiff, hok, hfail⟩
  refine ⟨?_, ?_, ?_⟩
  · rw [heq]
    exact hiff.trans (batchOk_all_iff env files)
  · intro hres hnd pc hpc
    rw [heq] at hres ⊢
    rcases hok hres with ⟨hfs, -⟩
    show lookupM (deployBatches env wm 0 fs (notifyStatus env wm cs)
      (chunk10 files)).fs (normPath pc.1) = some pc.2
    rw [hfs, foldl_writeBatch_flatten, chunk10_flatten]
    refine applyWrites_lookup_mem env files fs pc.1 pc.2 hpc ?_ hnd
    exact ((hiff.trans (batchOk_all_iff env files)).mp hres) pc hpc
  · intro hres
    rw [heq] at hres ⊢
    rcases hfail hres with ⟨good, bad, rest, hsplit, hgood, hbad, hfs, hev⟩
    refine ⟨good, bad, rest, hsplit, hgood, hbad, ?_, ?_⟩
    · show issuedPaths (deployBatches env wm 0 fs (notifyStatus env wm cs)
        (chunk10 files)).events = _
      rw [hev, issuedPaths_eventsJoin]
    · intro hnd pc hpc
      have hfiles : files = (good ++ [bad]).flatten ++ rest.flatten := by
        rw [← chunk10_flatten files, hsplit, List.flatten_append,
          List.flatten_append]
        simp [List.flatten_cons, List.append_assoc]
      have hndpre : ((good ++ [bad]).flatten.map
          (fun pc => normPath pc.1)).Nodup := by
        rw [hfiles, List.map_append] at hnd
        exact hnd.of_append_left
      have hmem : pc ∈ (good ++ [bad]).flatten := by
        rw [List.flatten_append]
        exact List.mem_append_left _ hpc
      have hwr : env.writeOk (normPath pc.1) = true := by
        rcases List.mem_flatten.mp hpc with ⟨b, hb, hpcb⟩
        exact List.all_eq_true.mp (hgood b hb) pc hpcb
      show lookupM (deployBatches env wm 0 fs (notifyStatus env wm cs)
        (chunk10 files)).fs (normPath pc.1) = some pc.2
      rw [hfs, foldl_writeBatch_flatten]
      exact applyWrites_lookup_mem env ((good ++ [bad]).flatten) fs pc.1 pc.2
        hmem hwr hndpre

/-- Witness for C6 at a concrete registered project and two files. -/
theorem c6_deploy_abort_witness :
    (lookupM stOne.active_sandboxes "p1").isSome = true ∧
    C6Spec stOne envBase [] ⟨[], []⟩ "p1" [("a.txt", "1"), ("b.txt", "2")]
      none "fullstack" :=
  ⟨by decide,
    c6_deploy_abort stOne envBase [] ⟨[], []⟩ "p1"
      [("a.txt", "1"), ("b.txt", "2")] none "fullstack" (by decide)⟩

/-- What C7 asserts of one `deploy_files` call: batch count and sizes, order
preservation of the file list, batch-monotone event positions (no later
batch's write is issued before every earlier batch's write is acknowledged),
and — when all writes succeed — an issue and an ack event for every file of
every batch. -/
def C7Spec (st : ManagerState) (env : Env) (fs : FS) (cs : ConnState)
    (pid : String) (files : List (String × String)) (wm : Option String)
    (mode : String) : Prop :=
  (chunk10 files).length = (files.length + 9) / 10 ∧
  (∀ b ∈ chunk10 files, b.length ≤ 10) ∧
  (chunk10 files).flatten = files ∧
  (∀ (i j : Nat) (e₁ e₂ : DEvent), i ≤ j →
    (deploy_files st env fs cs pid files wm mode).events[i]? = some e₁ →
    (deploy_files st env fs cs pid files wm mode).events[j]? = some e₂ →
    e₁.batchIdx ≤ e₂.batchIdx) ∧
  ((∀ pc ∈ files, env.writeOk (normPath pc.1) = true) →
    ∀ (i : Nat) (b : List (String × String)) (pc : String × String),
      (chunk10 files)[i]? = some b → pc ∈ b →
      DEvent.issue i pc.1 ∈
        (deploy_files st env fs cs pid files wm mode).events ∧
      DEvent.ack i pc.1 ∈
        (deploy_files st env fs cs pid files wm mode).events)

/-- C7: a deploy of `n` files issues `ceil(n/10)` batches of at most 10
files, in file order, and the event trace is batch-ordered: every write of
batch `N` is acknowledged before any write of batch `N + 1` is issued. -/
theorem c7_deploy_batches (st : ManagerState) (env : Env) (fs : FS)
    (cs : ConnState) (pid : String) (files : List (String × String))
    (wm : Option String) (mode : String)
    (hreg : (lookupM st.active_sandboxes pid).isSome = true) :
    C7Spec st env fs cs pid files wm mode := by
  have heq := deploy_files_eq st env fs cs pid files wm mode
    (isNone_false_of_isSome hreg)
  rcases deployBatches_spec env wm (chunk10 files) 0 fs (notifyStatus env wm cs)
    with ⟨hiff, hok, hfail⟩
  refine ⟨chunk10_length files, chunk10_sizes files, chunk10_flatten files,
    ?_, ?_⟩
  · intro i j e₁ e₂ hij h₁ h₂
    rw [heq] at h₁ h₂
    cases hres : (deployBatches env wm 0 fs (notifyStatus env wm cs)
        (chunk10 files)).res with
    | true =>
      rcases hok hres with ⟨-, hev⟩
      rw [hev] at h₁ h₂
      exact eventsJoin_mono env (chunk10 files) 0 i j e₁ e₂ hij h₁ h₂
    | false =>
      rcases hfail hres with ⟨good, bad, rest, -, -, -, -, hev⟩
      rw [hev] at h₁ h₂
      exact eventsJoin_mono env (good ++ [bad]) 0 i j e₁ e₂ hij h₁ h₂
  · intro hall i b pc hget hpc
    have hres : (deployBatches env wm 0 fs (notifyStatus env wm cs)
        (chunk10 files)).res = true :=
      hiff.mpr ((batchOk_all_iff env files).mpr hall)
    rcases hok hres with ⟨-, hev⟩
    have hcomp := eventsJoin_complete env (chunk10 files) 0 i b pc hget hpc
    have hbok : batchOk env b = true :=
      (batchOk_all_iff env files).mpr hall b (mem_of_getElem?_eq_some hget)
    rw [heq, hev]
    rw [Nat.zero_add] at hcomp
    exact ⟨hcomp.1, hcomp.2 hbok⟩

/-- Twenty-five files, the example of the batching property. -/
def files25 : List (String × String) :=
  [("f01", "c"), ("f02", "c"), ("f03", "c"), ("f04", "c"), ("f05", "c"),
   ("f06", "c"), ("f07", "c"), ("f08", "c"), ("f09", "c"), ("f10", "c"),
   ("f11", "c"), ("f12", "c"), ("f13", "c"), ("f14", "c"), ("f15", "c"),
   ("f16", "c"), ("f17", "c"), ("f18", "c"), ("f19", "c"), ("f20", "c"),
   ("f21", "c"), ("f22", "c"), ("f23", "c"), ("f24", "c"), ("f25", "c")]

/-- Witness for C7: deploying 25 files yields exactly 3 batches and the
batch-ordering properties hold at this concrete call. -/
theorem c7_deploy_batches_witness :
    (lookupM stOne.active_sandboxes "p1").isSome = true ∧
    files25.length = 25 ∧
    (chunk10 files25).length = 3 ∧
    C7Spec stOne envBase [] ⟨[], []⟩ "p1" files25 none "fullstack" :=
  ⟨by decide, by decide, by decide,
    c7_deploy_batches stOne envBase [] ⟨[], []⟩ "p1" files25 none "fullstack"
      (by decide)⟩

/-- C8: an exception while pushing a WebSocket message is caught inside
`send_message`, which reports `False` instead of raising; consequently a
`deploy_files` call on a registered project whose writes all succeed returns
`True` even when every progress emission fails. -/
theorem c8_notify_isolation :
    (∀ (cs : ConnState) (env : Env) (uid : String) (ws : Nat),
      lookupM cs.active_connections uid = some ws → env.sendOk ws = false →
      (send_message cs env uid).1 = false) ∧
    (∀ (st : ManagerState) (env : Env) (fs : FS) (cs : ConnState)
        (pid uid : String) (files : List (String × String)) (mode : String),
      (lookupM st.active_sandboxes pid).isSome = true →
      (∀ w, env.sendOk w = false) →
      (∀ pc ∈ files, env.writeOk (normPath pc.1) = true) →
      (deploy_files st env fs cs pid files (some uid) mode).res = true) := by
  constructor
  · intro cs env uid ws hl hs
    simp [send_message, hl, hs]
  · intro st env fs cs pid uid files mode hreg hsend hall
    rw [deploy_files_eq st env fs cs pid files (some uid) mode
      (isNone_false_of_isSome hreg)]
    rcases deployBatches_spec env (some uid) (chunk10 files) 0 fs
      (notifyStatus env (some uid) cs) with ⟨hiff, -, -⟩
    exact hiff.mpr ((batchOk_all_iff env files).mpr hall)

/-- A connection registry with one user, and a world whose sends all fail. -/
def csOne : ConnState := ⟨[("u1", 3)], [("c1", "u1")]⟩

/-- A world in which every WebSocket send raises. -/
def envC8 : Env := { envBase with sendOk := fun _ => false }

/-- Witness for C8: with a connected user whose socket raises on every send,
`send_message` reports `False` and a deploy whose writes succeed still
returns `True`. -/
theorem c8_notify_isolation_witness :
    lookupM csOne.active_connections "u1" = some 3 ∧
    envC8.sendOk 3 = false ∧
    (send_message csOne envC8 "u1").1 = false ∧
    (deploy_files stOne envC8 [] csOne "p1" [("a.txt", "1")] (some "u1")
      "fullstack").res = true :=
  ⟨by decide, rfl,
    c8_notify_isolation.1 csOne envC8 "u1" 3 (by decide) rfl,
    c8_notify_isolation.2 stOne envC8 [] csOne "p1" "u1" [("a.txt", "1")]
      "fullstack" (by decide) (fun w => rfl) (by decide)⟩
